import Mathlib

/-!
# calcelestial: the command processor of `src/calcelestial.c`

A shallow embedding of `main`, `usage` and `version` of `src/calcelestial.c`.

* Everything the translation unit calls but does not define (libc, libnova, and the
  repository's own `objects.c`, `helpers.c`, `formatter.c`) is a field of `Env`.
  Theorems quantify over every `Env`; `stub` is one concrete collaborator set used for
  closed instances.
* The preprocessor symbols `GEONAMES_SUPPORT` and `DEBUG` are the two fields of `Build`.
* Every call with an observable effect (`printf`, `fprintf`, the engine, the formatter, the
  lookup) is recorded, in program order, in a trace of `Effect`s.
* A `double` is a value of `Double`: NaN, an infinity, or a signed dyadic number.
-/

namespace Calcelestial

/-! ## `double` -/

/-- A C `double`: NaN, plus or minus infinity, or the finite value `(-1)^neg * m * 2^e`. -/
inductive Double where
  | nan
  | inf (neg : Bool)
  | fin (neg : Bool) (m : Nat) (e : Int)
  deriving DecidableEq, Repr

namespace Double

/-- The conversion of a C integer constant to `double`. -/
def ofInt (n : Int) : Double := fin (decide (n < 0)) n.natAbs 0

/-- The function `fabs` of `math.h`: clears the sign; NaN stays NaN. -/
def fabs : Double → Double
  | nan => nan
  | inf _ => inf false
  | fin _ m e => fin false m e

/-- The signed numerator of a finite value over the common denominator `2^(-k)`, for an
exponent `k` that is at most `e`: `(-1)^neg * m * 2^(e-k)`. -/
def scaled (neg : Bool) (m : Nat) (e k : Int) : Int :=
  if neg then -((m <<< (e - k).toNat : Nat) : Int) else ((m <<< (e - k).toNat : Nat) : Int)

/-- The C operator `a > b` on doubles: false as soon as one operand is NaN. -/
def gt : Double → Double → Bool
  | nan, _ => false
  | _, nan => false
  | inf false, inf false => false
  | inf false, _ => true
  | inf true, _ => false
  | fin _ _ _, inf neg => neg
  | fin n1 m1 e1, fin n2 m2 e2 =>
    decide (scaled n2 m2 e2 (min e1 e2) < scaled n1 m1 e1 (min e1 e2))

/-- The C condition `lo <= x && x <= hi`: the closed interval; NaN is in no interval. -/
def within (lo hi x : Double) : Bool :=
  match x with
  | nan => false
  | _ => !(gt lo x) && !(gt x hi)

end Double

/-- The constant `DBL_MAX` of `float.h`: `(2^53 - 1) * 2^971`. -/
def DBL_MAX : Double := Double.fin false (2 ^ 53 - 1) 971

/-! ## Types of the collaborators -/

/-- The type `struct ln_lnlat_posn` of libnova: longitude first, then latitude. -/
structure ln_lnlat_posn where
  lng : Double
  lat : Double
  deriving DecidableEq, Repr

/-- The type `struct ln_rst_time` of libnova. -/
structure ln_rst_time where
  rise : Double
  set : Double
  transit : Double
  deriving DecidableEq, Repr

/-- The type `struct ln_equ_posn` of libnova. -/
structure ln_equ_posn where
  ra : Double
  dec : Double
  deriving DecidableEq, Repr

/-- The type `struct ln_hrz_posn` of libnova. -/
structure ln_hrz_posn where
  az : Double
  alt : Double
  deriving DecidableEq, Repr

/-- Modelled from the spec: `enum object` of `objects.h`, which is not in `src/`
("enumerated: sun, moon, named planets, invalid"). -/
inductive object where
  | OBJECT_INVALID
  | OBJECT_SUN
  | OBJECT_MOON
  | OBJECT_PLANET (n : Nat)
  deriving DecidableEq, Repr

/-- Modelled from the spec: `struct object_details` of `objects.h`, which is not in `src/`
("the chosen output instant, the observer position used, and (after the position query)
the object's computed horizontal/equatorial coordinates at that instant"); `main` itself
uses the members `jd`, `obs` and `rst`. -/
structure object_details where
  jd : Double
  obs : ln_lnlat_posn
  rst : ln_rst_time
  hrz : ln_hrz_posn
  equ : ln_equ_posn
  deriving DecidableEq, Repr

/-- The type `struct tm` of `time.h`. -/
structure tm where
  tm_sec : Int
  tm_min : Int
  tm_hour : Int
  tm_mday : Int
  tm_mon : Int
  tm_year : Int
  tm_wday : Int
  tm_yday : Int
  tm_isdst : Int
  deriving DecidableEq, Repr

/-- The type `enum moment`. -/
inductive moment where
  | MOMENT_NOW
  | MOMENT_RISE
  | MOMENT_SET
  | MOMENT_TRANSIT
  deriving DecidableEq, Repr

/-- The type `struct option` of `getopt.h`; `flag` is `none` for the null pointer. -/
structure option where
  name : String
  has_arg : Nat
  flag : Option Nat
  val : Char
  deriving DecidableEq, Repr

/-- The constant `no_argument` of `getopt.h`. -/
def no_argument : Nat := 0

/-- The constant `required_argument` of `getopt.h`. -/
def required_argument : Nat := 1

/-- The constant `EXIT_SUCCESS` of `stdlib.h`. -/
def EXIT_SUCCESS : Int := 0

/-- The constant `EXIT_FAILURE` of `stdlib.h` (1 on every POSIX libc). -/
def EXIT_FAILURE : Int := 1

/-- The constant `EXIT_CIRCUMPOLAR` (`#define EXIT_CIRCUMPOLAR 2`). -/
def EXIT_CIRCUMPOLAR : Int := 2

/-- The preprocessor symbols that select code of the translation unit. -/
structure Build where
  GEONAMES_SUPPORT : Bool
  DEBUG : Bool
  deriving DecidableEq, Repr

/-- Everything `calcelestial.c` uses without defining it. -/
structure Env where
  -- config.h
  PACKAGE_NAME : String
  PACKAGE_VERSION : String
  PACKAGE_BUGREPORT : String
  -- libnova
  LIBNOVA_VERSION : String
  LN_SOLAR_STANDART_HORIZON : Double
  LN_SOLAR_CIVIL_HORIZON : Double
  LN_SOLAR_NAUTIC_HORIZON : Double
  LN_SOLAR_ASTRONOMICAL_HORIZON : Double
  ln_get_julian_from_sys : Double
  ln_get_julian_from_timet : Int → Double
  ln_get_timet_from_julian : Double → Int
  /-- From libc: the value of the global `timezone` after `tzset()` -/
  timezone : Int
  /-- From libc: `basename`; the argument is `none` for a null `argv[0]` -/
  basename : Option String → String
  /-- From libc: the successive returns `(c, optarg)` of `getopt_long(argc, argv, optstring,
  longopts, NULL)` up to, and without, the first `-1`; the messages `getopt_long` itself
  writes to the error stream are not part of the trace -/
  getopt_long : List String → String → List option → List (Char × Option String)
  /-- From libc: `strtod(s, &endptr)`: the value and `endptr - s` -/
  strtod : String → Double × Nat
  /-- From libc: `strptime(s, format, &date)`: `none` for NULL, else the updated `date` -/
  strptime : String → String → tm → Option tm
  mktime : tm → Int
  gmtime : Int → tm
  strftime : String → tm → String
  atoi : String → Int
  -- objects.c
  object_from_name : String → Bool → object
  /-- From `objects.c`: `object_rst(obj, jd, horizon, &obs, &rst)`: the return value and the
  contents of `rst` afterwards (the last argument is its contents before) -/
  object_rst : object → Double → Double → ln_lnlat_posn → ln_rst_time → Int × ln_rst_time
  /-- From `objects.c`: `object_pos(obj, jd, &obs, &result)`: `result` afterwards -/
  object_pos : object → Double → ln_lnlat_posn → object_details → object_details
  /-- From `helpers.c`: `geonames_lookup(query, &obs, NULL, 0)`: the return value and the
  contents of `obs` afterwards -/
  geonames_lookup : String → ln_lnlat_posn → Int × ln_lnlat_posn
  /-- The indeterminate contents of the automatic variables `result` and `date`, which
  `main` declares without an initialiser -/
  result : object_details
  date : tm

/-! ## Observable effects -/

/-- The two output streams. -/
inductive Stream where
  | stdout
  | stderr
  deriving DecidableEq, Repr

/-- One variadic argument of a `printf` call. -/
inductive Arg where
  | str (s : Option String)
  | chr (c : Char)
  | dbl (d : Double)
  | int (n : Int)
  | enum (o : object)
  deriving DecidableEq, Repr

/-- One observable call of `main`, `usage` or `version`. -/
inductive Effect where
  | printf (s : Stream) (format : String) (args : List Arg)
  | object_rst (obj : object) (jd : Double) (horizon : Double) (obs : ln_lnlat_posn)
  | object_pos (obj : object) (jd : Double) (obs : ln_lnlat_posn)
  | format_result (format : String) (result : object_details) (timezone : Int)
  | geonames_lookup (query : String)
  deriving DecidableEq, Repr

/-! ## The translation unit -/

/-- The table `long_options` without its terminating `{0}` entry. -/
def long_options (b : Build) : List option :=
  [ ⟨"object", required_argument, none, 'p'⟩,
    ⟨"horizon", required_argument, none, 'H'⟩,
    ⟨"time", required_argument, none, 't'⟩,
    ⟨"moment", required_argument, none, 'm'⟩,
    ⟨"format", required_argument, none, 'f'⟩,
    ⟨"lat", required_argument, none, 'a'⟩,
    ⟨"lon", required_argument, none, 'o'⟩ ] ++
  (if b.GEONAMES_SUPPORT then [⟨"query", required_argument, none, 'q'⟩] else []) ++
  [ ⟨"timezone", required_argument, none, 'z'⟩,
    ⟨"help", no_argument, none, 'h'⟩,
    ⟨"version", no_argument, none, 'v'⟩ ]

/-- The table `long_options_descs`. -/
def long_options_descs (b : Build) : List String :=
  [ "calculate for given object/planet (sun, moon, uranus, ...)",
    "calculate rise/set with given twilight (nautic, civil, astronomical)",
    "calculate with given time (eg. 2011-12-25)",
    "use rise/set/transit time for position calculation",
    "output format (see strftime (3))",
    "geographical latitude (-90° to 90°)",
    "geographical longitude (-180° to 180°)" ] ++
  (if b.GEONAMES_SUPPORT then ["query geonames.org for geographical position"] else []) ++
  [ "use timezone for output",
    "show this help",
    "show version" ]

/-- The third argument of the `getopt_long` call. -/
def optstring : String := "+hvt:d:f:a:o:q:z:p:m:H:"

/-- The function `version`. -/
def version (env : Env) : List Effect :=
  [ .printf .stdout "%s %s\n" [.str (some env.PACKAGE_NAME), .str (some env.PACKAGE_VERSION)],
    .printf .stdout "libnova %s\n" [.str (some env.LIBNOVA_VERSION)] ]

/-- The `while (op->name && desc)` loop of `usage`: one line per table entry, until the
terminating entry of `long_options`; `desc` is never null, and the two tables have the same
length (`tables_aligned`), so the descriptions do not run out before the options. -/
def usage_loop : List option → List String → List Effect
  | [], _ => []
  | _ :: _, [] => []
  | op :: ops, desc :: descs =>
    .printf .stdout "  -%c, --%s%s%s\n"
      [.chr op.val, .str (some op.name),
       .str (some (if op.name.length ≤ 7 then "\t\t" else "\t")), .str (some desc)]
    :: usage_loop ops descs

/-- The function `usage`. -/
def usage (env : Env) (b : Build) : List Effect :=
  [ .printf .stdout "Usage:\n  %s [options]\n\n" [.str (some env.PACKAGE_NAME)],
    .printf .stdout "Options:\n" [] ] ++
  usage_loop (long_options b) (long_options_descs b) ++
  [ .printf .stdout "\nA combination of --lat, --lon or --query is required.\n" [],
    .printf .stdout "Please report bugs to: %s\n" [.str (some env.PACKAGE_BUGREPORT)] ]

/-- The local variables of `main` that the option loop reads and writes, and the global
`timezone`. -/
structure State where
  horizon : Double
  format : String
  query : Option String
  error : Bool
  verbose : Bool
  jd : Double
  moment : moment
  obj : object
  obs : ln_lnlat_posn
  timezone : Int
  deriving DecidableEq, Repr

/-- The way one pass through the body of the option loop ends. -/
inductive StepResult where
  /-- The `switch` is left through `break`: the loop goes on -/
  | next (st : State) (eff : List Effect)
  /-- The statement `return code` -/
  | ret (eff : List Effect) (code : Int)
  /-- A null `optarg` is passed to a function that reads a string -/
  | undefined
  deriving DecidableEq, Repr

/-- The statements of `case 'H'`. -/
def case_H (env : Env) (st : State) : Option String → StepResult
  | none => .undefined
  | some s =>
    if s = "civil" then .next { st with horizon := env.LN_SOLAR_CIVIL_HORIZON } []
    else if s = "nautic" then .next { st with horizon := env.LN_SOLAR_NAUTIC_HORIZON } []
    else if s = "astronomical" then
      .next { st with horizon := env.LN_SOLAR_ASTRONOMICAL_HORIZON } []
    else if (env.strtod s).2 = 0 then
      .next { st with horizon := (env.strtod s).1, error := true }
        [.printf .stderr "invalid twilight: %s\n" [.str (some s)]]
    else .next { st with horizon := (env.strtod s).1 } []

/-- The statements of `case 't'`; `date` holds `env.date` before the call of `strptime`. -/
def case_t (env : Env) (st : State) : Option String → StepResult
  | none => .undefined
  | some s =>
    match env.strptime s "%Y-%m-%d %H:%M:%S" env.date with
    | none =>
      .next { st with error := true } [.printf .stderr "invalid date: %s\n" [.str (some s)]]
    | some date => .next { st with jd := env.ln_get_julian_from_timet (env.mktime date) } []

/-- The statements of `case 'm'`. -/
def case_m (st : State) : Option String → StepResult
  | none => .undefined
  | some s =>
    if s = "now" then .next { st with moment := .MOMENT_NOW } []
    else if s = "rise" then .next { st with moment := .MOMENT_RISE } []
    else if s = "set" then .next { st with moment := .MOMENT_SET } []
    else if s = "transit" then .next { st with moment := .MOMENT_TRANSIT } []
    else .next { st with error := true } [.printf .stderr "invalid moment: %s\n" [.str (some s)]]

/-- The statements of `case 'f'`; `strdup` returns a copy. -/
def case_f (st : State) : Option String → StepResult
  | none => .undefined
  | some s => .next { st with format := s } []

/-- The statements of `case 'a'`. -/
def case_a (env : Env) (st : State) : Option String → StepResult
  | none => .undefined
  | some s => .next { st with obs := { st.obs with lat := (env.strtod s).1 } } []

/-- The statements of `case 'o'`. -/
def case_o (env : Env) (st : State) : Option String → StepResult
  | none => .undefined
  | some s => .next { st with obs := { st.obs with lng := (env.strtod s).1 } } []

/-- The statements of `case 'q'`, which exists under `GEONAMES_SUPPORT` only. -/
def case_q (st : State) : Option String → StepResult
  | none => .undefined
  | some s => .next { st with query := some s } []

/-- The statements of `case 'p'`. -/
def case_p (env : Env) (st : State) : Option String → StepResult
  | none => .undefined
  | some s => .next { st with obj := env.object_from_name s false } []

/-- A value brought into the range of a 32-bit `int` by wrapping. -/
def wrap_int (n : Int) : Int := (n + 2 ^ 31) % 2 ^ 32 - 2 ^ 31

/-- The statements of `case 'z'`: `-3600 * atoi(optarg)` is a product of two `int`s, which
wraps to 32 bits where it overflows, and is then stored in the `long` variable `timezone`. -/
def case_z (env : Env) (st : State) : Option String → StepResult
  | none => .undefined
  | some s => .next { st with timezone := wrap_int (-3600 * env.atoi s) } []

/-- The statements of `case '?'` and `default`; `optarg` is printed as it is, null or not. -/
def case_default (st : State) (optarg : Option String) : StepResult :=
  .next { st with error := true } [.printf .stderr "unrecognized option %s\n" [.str optarg]]

/-- The `switch (c)` of the option loop, for one return `(c, optarg)` of `getopt_long`. -/
def step (env : Env) (b : Build) (st : State) (c : Char) (optarg : Option String) :
    StepResult :=
  if c = 'H' then case_H env st optarg
  else if c = 't' then case_t env st optarg
  else if c = 'm' then case_m st optarg
  else if c = 'f' then case_f st optarg
  else if c = 'a' then case_a env st optarg
  else if c = 'o' then case_o env st optarg
  else if c = 'q' ∧ b.GEONAMES_SUPPORT = true then case_q st optarg
  else if c = 'p' then case_p env st optarg
  else if c = 'z' then case_z env st optarg
  else if c = 'v' then .ret (version env) EXIT_SUCCESS
  else if c = 'h' then .ret (usage env b) EXIT_SUCCESS
  else case_default st optarg

/-- The way the option loop ends. -/
inductive LoopResult where
  /-- The call of `getopt_long` returned `-1`: the loop is left through `break` -/
  | done (st : State) (eff : List Effect)
  /-- A `return` inside the loop ended `main` -/
  | returned (eff : List Effect) (code : Int)
  /-- A null `optarg` was read as a string: the behaviour is undefined -/
  | undefined (eff : List Effect)
  deriving DecidableEq, Repr

/-- The loop `while (1)` of `main`, over the successive returns of `getopt_long`. -/
def parse_args (env : Env) (b : Build) : List (Char × Option String) → State → LoopResult
  | [], st => .done st []
  | (c, optarg) :: rest, st =>
    match step env b st c optarg with
    | .undefined => .undefined []
    | .ret eff code => .returned eff code
    | .next st1 eff =>
      match parse_args env b rest st1 with
      | .done st2 eff2 => .done st2 (eff ++ eff2)
      | .returned eff2 code => .returned (eff ++ eff2) code
      | .undefined eff2 => .undefined (eff ++ eff2)

/-- The statement `if (obj == OBJECT_INVALID)` after the loop. -/
def validate_obj (st : State) : State × List Effect :=
  if st.obj = .OBJECT_INVALID then
    ({ st with error := true }, [.printf .stderr "invalid object\n" []])
  else (st, [])

/-- The block `#ifdef GEONAMES_SUPPORT` after the loop: the lookup writes through `&obs`. -/
def validate_query (env : Env) (b : Build) (st : State) : State × List Effect :=
  if b.GEONAMES_SUPPORT then
    match st.query with
    | none => (st, [])
    | some q =>
      if (env.geonames_lookup q st.obs).1 ≠ 0 then
        ({ st with obs := (env.geonames_lookup q st.obs).2, error := true },
          [.geonames_lookup q,
           .printf .stderr "failed to lookup location: %s\n" [.str (some q)]])
      else ({ st with obs := (env.geonames_lookup q st.obs).2 }, [.geonames_lookup q])
  else (st, [])

/-- The statement `if (fabs(obs.lat) > 90)`. -/
def validate_lat (st : State) : State × List Effect :=
  if (st.obs.lat.fabs).gt (Double.ofInt 90) then
    ({ st with error := true }, [.printf .stderr "invalid latitude\n" []])
  else (st, [])

/-- The statement `if (fabs(obs.lng) > 180)`. -/
def validate_lng (st : State) : State × List Effect :=
  if (st.obs.lng.fabs).gt (Double.ofInt 180) then
    ({ st with error := true }, [.printf .stderr "invalid longitude\n" []])
  else (st, [])

/-- The statements of `main` between the option loop and `/* abort on errors */`. -/
def validate (env : Env) (b : Build) (st : State) : State × List Effect :=
  let r1 := validate_obj st
  let r2 := validate_query env b r1.1
  let r3 := validate_lat r2.1
  let r4 := validate_lng r3.1
  (r4.1, r1.2 ++ r2.2 ++ r3.2 ++ r4.2)

/-- The block `#ifdef DEBUG`. -/
def debug_trace (env : Env) (st : State) : List Effect :=
  [ .printf .stdout "calculate for: %s\n"
      [.str (some (env.strftime "%Y-%m-%d %H:%M:%S"
        (env.gmtime (env.ln_get_timet_from_julian st.jd))))],
    .printf .stdout "calculate for jd: %f\n" [.dbl st.jd],
    .printf .stdout "for position: %f, %f\n" [.dbl st.obs.lat, .dbl st.obs.lng],
    .printf .stdout "for object: %d\n" [.enum st.obj],
    .printf .stdout "with horizon: %f\n" [.dbl st.horizon],
    .printf .stdout "with timezone: UTC +%dh\n" [.int (Int.tdiv st.timezone (-3600))] ]

/-- What a run of `main` did and how it ended; `status` is `none` when the behaviour is
undefined. -/
structure Outcome where
  trace : List Effect
  status : Option Int
  deriving DecidableEq, Repr

/-- The end of `main` from `result.obs = obs` on: the position query, the formatter,
`return EXIT_SUCCESS`. -/
def finish (env : Env) (st : State) (result : object_details) : Outcome :=
  ⟨[ .object_pos st.obj result.jd st.obs,
     .format_result st.format
       (env.object_pos st.obj result.jd st.obs { result with obs := st.obs }) st.timezone ],
   some EXIT_SUCCESS⟩

/-- The statement `if (object_rst(...) == 1) ... else switch (moment) ...` and what follows
it. The variable `result` holds `env.result`, its indeterminate contents, until then. -/
def calculate (env : Env) (st : State) : Outcome :=
  let r := env.object_rst st.obj st.jd st.horizon st.obs env.result.rst
  let result : object_details := { env.result with rst := r.2 }
  if r.1 = 1 then
    if st.moment ≠ .MOMENT_NOW then
      ⟨[ .object_rst st.obj st.jd st.horizon st.obs,
         .printf .stderr "object is circumpolar\n" [] ], some EXIT_CIRCUMPOLAR⟩
    else
      ⟨.object_rst st.obj st.jd st.horizon st.obs :: (finish env st result).trace,
       (finish env st result).status⟩
  else
    let result1 : object_details :=
      match st.moment with
      | .MOMENT_NOW => { result with jd := st.jd }
      | .MOMENT_RISE => { result with jd := result.rst.rise }
      | .MOMENT_SET => { result with jd := result.rst.set }
      | .MOMENT_TRANSIT => { result with jd := result.rst.transit }
    ⟨.object_rst st.obj st.jd st.horizon st.obs :: (finish env st result1).trace,
     (finish env st result1).status⟩

/-- The values of the local variables of `main` when the option loop starts. -/
def initial (env : Env) (argv : List String) : State :=
  { horizon := env.LN_SOLAR_STANDART_HORIZON
    format := "%Y-%m-%d %H:%M:%S"
    query := none
    error := false
    verbose := false
    jd := env.ln_get_julian_from_sys
    moment := .MOMENT_NOW
    obj := env.object_from_name (env.basename argv.head?) false
    obs := ⟨DBL_MAX, DBL_MAX⟩
    timezone := env.timezone }

/-- The function `main`, for the argument vector `argv`. -/
def main (env : Env) (b : Build) (argv : List String) : Outcome :=
  match parse_args env b (env.getopt_long argv optstring (long_options b)) (initial env argv) with
  | .undefined eff => ⟨eff, none⟩
  | .returned eff code => ⟨eff, some code⟩
  | .done st eff =>
    let v := validate env b st
    if v.1.error then
      ⟨eff ++ v.2 ++ [.printf .stdout "\n" []] ++ usage env b, some EXIT_FAILURE⟩
    else
      ⟨eff ++ v.2 ++ (if b.DEBUG then debug_trace env v.1 else []) ++ (calculate env v.1).trace,
       (calculate env v.1).status⟩

/-! ## Projections of a trace -/

/-- Whether an effect writes to standard output: a `printf`, or the formatter, which prints
the formatted line. -/
def Effect.on_stdout : Effect → Bool
  | .printf .stdout _ _ => true
  | .format_result _ _ _ => true
  | _ => false

/-- The part of a trace that goes to standard output. -/
def stdout_of (tr : List Effect) : List Effect := tr.filter Effect.on_stdout

/-- Whether an effect is a call of the astronomy engine (`object_rst` or `object_pos`). -/
def Effect.is_engine : Effect → Bool
  | .object_rst _ _ _ _ => true
  | .object_pos _ _ _ => true
  | _ => false

/-- Whether an effect is a call of the formatter. -/
def Effect.is_formatter : Effect → Bool
  | .format_result _ _ _ => true
  | _ => false

/-! ## A concrete set of collaborators

`stub` instantiates `Env` for closed instances of the theorems. Its libc part follows the
documented behaviour of the C library (GNU `getopt_long` in the `+` mode, POSIX `basename`,
C99 `strtod` and `atoi` on decimal input, `strptime` and `strftime` for the one pattern
`main` uses); its engine is a toy. -/

namespace Stub

/-- Whether `c` is an option character of `optstring`, and whether it takes an argument. -/
def short_lookup : List Char → Char → Option Bool
  | [], _ => none
  | x :: rest, c =>
    if c = ':' ∨ c = ';' then none
    else if x = c then some (rest.head? = some ':')
    else short_lookup rest c

/-- The returns of `getopt_long` for the option characters of one element `-abc`, and
whether the following element was taken as an argument. -/
def short_cluster (opts : List Char) (next : Option String) :
    List Char → List (Char × Option String) × Bool
  | [] => ([], false)
  | c :: rest =>
    match short_lookup opts c with
    | none => (('?', none) :: (short_cluster opts next rest).1, (short_cluster opts next rest).2)
    | some false => ((c, none) :: (short_cluster opts next rest).1, (short_cluster opts next rest).2)
    | some true =>
      if rest ≠ [] then ([(c, some (String.mk rest))], false)
      else
        match next with
        | some a => ([(c, some a)], true)
        | none => ([('?', none)], false)

/-- The entry of `longopts` that `name` selects: the one of that exact name, else the one
it abbreviates when that is unambiguous. -/
def long_match (longopts : List option) (name : List Char) : Option option :=
  match longopts.find? (fun o => o.name.toList = name) with
  | some o => some o
  | none =>
    match longopts.filter (fun o => name.isPrefixOf o.name.toList) with
    | [] => none
    | o :: os =>
      if os.all (fun p => p.has_arg = o.has_arg ∧ p.flag = o.flag ∧ p.val = o.val) then some o
      else none

/-- The return of `getopt_long` for one element `--body`, and whether the following element
was taken as its argument. -/
def long_option (longopts : List option) (body : List Char) (next : Option String) :
    (Char × Option String) × Bool :=
  match long_match longopts (body.takeWhile (fun c => c ≠ '=')) with
  | none => (('?', none), false)
  | some o =>
    match (body.dropWhile (fun c => c ≠ '=')).tail? with
    | some v =>
      if o.has_arg = no_argument then (('?', none), false)
      else ((o.val, some (String.mk v)), false)
    | none =>
      if o.has_arg = required_argument then
        match next with
        | some a => ((o.val, some a), true)
        | none => (('?', none), false)
      else ((o.val, none), false)

/-- The returns of `getopt_long` over the elements after `argv[0]`; the flag tells that the
first element was already taken as an argument. The scan stops at `--` and at the first
element that is not an option. -/
def walk (opts : List Char) (longopts : List option) :
    List String → Bool → List (Char × Option String)
  | [], _ => []
  | _ :: rest, true => walk opts longopts rest false
  | a :: rest, false =>
    match a.toList with
    | '-' :: '-' :: body =>
      if body = [] then []
      else
        (long_option longopts body rest.head?).1 ::
          walk opts longopts rest (long_option longopts body rest.head?).2
    | '-' :: c :: cl =>
      (short_cluster opts rest.head? (c :: cl)).1 ++
        walk opts longopts rest (short_cluster opts rest.head? (c :: cl)).2
    | _ => []

/-- GNU `getopt_long` for an `optstring` that starts with `+`. -/
def getopt_long (argv : List String) (optstring : String) (longopts : List option) :
    List (Char × Option String) :=
  walk (optstring.toList.dropWhile (fun c => c = '+')) longopts argv.tail false

/-- POSIX `basename`. -/
def basename : Option String → String
  | none => "."
  | some s =>
    if s.toList = [] then "."
    else if s.toList.reverse.dropWhile (fun c => c = '/') = [] then "/"
    else
      String.mk
        ((s.toList.reverse.dropWhile (fun c => c = '/')).takeWhile (fun c => c ≠ '/')).reverse

/-- The names `object_from_name` knows besides `sun` and `moon`. -/
def planets : List String :=
  ["mercury", "venus", "mars", "jupiter", "saturn", "uranus", "neptune", "pluto"]

/-- Modelled from the spec: `object_from_name` of `objects.c`, which is not in `src/`
("sun, moon, planet names", "a symlink named moon implies the moon object"). -/
def object_from_name (name : String) (casesens : Bool) : object :=
  let n := if casesens then name else String.mk (name.toList.map Char.toLower)
  if n = "sun" then .OBJECT_SUN
  else if n = "moon" then .OBJECT_MOON
  else if planets.indexOf n < planets.length then .OBJECT_PLANET (planets.indexOf n)
  else .OBJECT_INVALID

/-- The function `isspace` in the C locale. -/
def is_space (c : Char) : Bool :=
  c = ' ' ∨ (9 ≤ c.toNat ∧ c.toNat ≤ 13)

/-- A run of decimal digits: the value (continuing `acc`), the number of digits, the rest. -/
def digits : List Char → Nat → Nat → Nat × Nat × List Char
  | [], acc, n => (acc, n, [])
  | c :: cs, acc, n =>
    if c.isDigit then digits cs (acc * 10 + (c.toNat - 48)) (n + 1) else (acc, n, c :: cs)

/-- An optional sign: whether it is `-`, how many characters it takes, the rest. -/
def sign : List Char → Bool × Nat × List Char
  | '-' :: r => (true, 1, r)
  | '+' :: r => (false, 1, r)
  | r => (false, 0, r)

/-- The number of binary digits of `n`, for `n` at most the first argument. -/
def bit_length : Nat → Nat → Nat
  | 0, _ => 0
  | k + 1, n => if n = 0 then 0 else bit_length k (n / 2) + 1

/-- The binary64 value nearest to `n / d` (ties to even), infinite past `DBL_MAX`. -/
def round_to_double (neg : Bool) (n d : Nat) : Double :=
  if n = 0 then .fin neg 0 0
  else
    let l : Int := (bit_length n n : Int) - (bit_length d d : Int)
    let lo : Int := if d <<< l.toNat ≤ n <<< (-l).toNat then l else l - 1
    let e : Int := max (lo - 52) (-1074)
    let num := n <<< (-e).toNat
    let den := d <<< e.toNat
    let m := if den < 2 * (num % den) ∨ (2 * (num % den) = den ∧ (num / den) % 2 = 1)
      then num / den + 1 else num / den
    if 971 < e ∨ (e = 971 ∧ 2 ^ 53 ≤ m) then .inf neg else .fin neg m e

/-- The exponent part `e[+-]ddd` of a decimal floating constant: its value and its length
(0 when there is none). -/
def exponent : List Char → Int × Nat
  | c :: r =>
    if c = 'e' ∨ c = 'E' then
      if (digits (sign r).2.2 0 0).2.1 = 0 then (0, 0)
      else
        (if (sign r).1 then -((digits (sign r).2.2 0 0).1 : Int)
          else ((digits (sign r).2.2 0 0).1 : Int),
         1 + (sign r).2.1 + (digits (sign r).2.2 0 0).2.1)
    else (0, 0)
  | [] => (0, 0)

/-- Whether `cs` starts with the lower-case word `w`, whatever the case of `cs`. -/
def starts_with (w : String) (cs : List Char) : Bool :=
  w.toList.isPrefixOf (cs.map Char.toLower)

/-- The digits, the point and the exponent of a decimal floating constant, after the sign:
the value and the length, `(0, 0)` when there is no digit. -/
def decimal (neg : Bool) (cs : List Char) : Double × Nat :=
  let ip := digits cs 0 0
  let dot : Nat := if ip.2.2.head? = some '.' then 1 else 0
  let fp := if dot = 1 then digits ip.2.2.tail ip.1 0 else (ip.1, 0, ip.2.2)
  if ip.2.1 + fp.2.1 = 0 then (.fin false 0 0, 0)
  else
    let ex := exponent fp.2.2
    let k : Int := ex.1 - (fp.2.1 : Int)
    (round_to_double neg (fp.1 * 10 ^ k.toNat) (10 ^ (-k).toNat),
     ip.2.1 + dot + fp.2.1 + ex.2)

/-- C99 `strtod` on decimal constants, `inf`, `infinity` and `nan` (hexadecimal constants and
`nan(...)` are read only as far as the decimal constant they start with). -/
def strtod (s : String) : Double × Nat :=
  let sp := (s.toList.takeWhile is_space).length
  let sg := sign (s.toList.drop sp)
  if starts_with "infinity" sg.2.2 then (.inf sg.1, sp + sg.2.1 + 8)
  else if starts_with "inf" sg.2.2 then (.inf sg.1, sp + sg.2.1 + 3)
  else if starts_with "nan" sg.2.2 then (.nan, sp + sg.2.1 + 3)
  else
    let r := decimal sg.1 sg.2.2
    if r.2 = 0 then (r.1, 0) else (r.1, sp + sg.2.1 + r.2)

/-- The function `atoi` (values in the range of `int`). -/
def atoi (s : String) : Int :=
  let sg := sign (s.toList.dropWhile is_space)
  if sg.1 then -((digits sg.2.2 0 0).1 : Int) else ((digits sg.2.2 0 0).1 : Int)

/-- A decimal number of at most `w` digits: the value (continuing `acc`), the number of
digits, the rest. -/
def number : Nat → List Char → Nat → Nat → Nat × Nat × List Char
  | 0, cs, acc, n => (acc, n, cs)
  | _ + 1, [], acc, n => (acc, n, [])
  | w + 1, c :: cs, acc, n =>
    if c.isDigit then number w cs (acc * 10 + (c.toNat - 48)) (n + 1) else (acc, n, c :: cs)

/-- A numeric conversion of `strptime`: white space, then at most `w` digits whose value
lies in `[lo, hi]`. -/
def field (w lo hi : Nat) (cs : List Char) : Option (Nat × List Char) :=
  if (number w (cs.dropWhile is_space) 0 0).2.1 = 0 ∨
      (number w (cs.dropWhile is_space) 0 0).1 < lo ∨
      hi < (number w (cs.dropWhile is_space) 0 0).1 then none
  else some ((number w (cs.dropWhile is_space) 0 0).1, (number w (cs.dropWhile is_space) 0 0).2.2)

/-- An ordinary character of a `strptime` pattern. -/
def literal (c : Char) : List Char → Option (List Char)
  | x :: r => if x = c then some r else none
  | [] => none

/-- The function `strptime` for the pattern `%Y-%m-%d %H:%M:%S` (no other pattern matches). -/
def strptime (s : String) (format : String) (date : tm) : Option tm :=
  if format ≠ "%Y-%m-%d %H:%M:%S" then none
  else do
    let y ← field 4 0 9999 s.toList
    let r ← literal '-' y.2
    let m ← field 2 1 12 r
    let r ← literal '-' m.2
    let d ← field 2 1 31 r
    let h ← field 2 0 23 (d.2.dropWhile is_space)
    let r ← literal ':' h.2
    let mi ← field 2 0 59 r
    let r ← literal ':' mi.2
    let sec ← field 2 0 60 r
    pure { date with
      tm_year := (y.1 : Int) - 1900, tm_mon := (m.1 : Int) - 1, tm_mday := d.1,
      tm_hour := h.1, tm_min := mi.1, tm_sec := sec.1 }

/-- The number of days from 1970-01-01 to the day `d` of the month `m` of the year `y`. -/
def days_from_civil (y m d : Int) : Int :=
  let y1 := if m ≤ 2 then y - 1 else y
  let era := y1 / 400
  let yoe := y1 - era * 400
  let doy := (153 * (if 2 < m then m - 3 else m + 9) + 2) / 5 + d - 1
  era * 146097 + (yoe * 365 + yoe / 4 - yoe / 100 + doy) - 719468

/-- The function `mktime` in the time zone UTC. -/
def mktime (date : tm) : Int :=
  days_from_civil (date.tm_year + 1900) (date.tm_mon + 1) date.tm_mday * 86400 +
    date.tm_hour * 3600 + date.tm_min * 60 + date.tm_sec

/-- The function `gmtime`. -/
def gmtime (t : Int) : tm :=
  let days := t / 86400
  let secs := t % 86400
  let z := days + 719468
  let era := z / 146097
  let doe := z - era * 146097
  let yoe := (doe - doe / 1460 + doe / 36524 - doe / 146096) / 365
  let doy := doe - (365 * yoe + yoe / 4 - yoe / 100)
  let mp := (5 * doy + 2) / 153
  let m := if mp < 10 then mp + 3 else mp - 9
  let y := if m ≤ 2 then yoe + era * 400 + 1 else yoe + era * 400
  { tm_sec := secs % 60, tm_min := secs / 60 % 60, tm_hour := secs / 3600,
    tm_mday := doy - (153 * mp + 2) / 5 + 1, tm_mon := m - 1, tm_year := y - 1900,
    tm_wday := (days + 4) % 7, tm_yday := days - days_from_civil y 1 1, tm_isdst := 0 }

/-- A number in decimal, with a leading zero below ten. -/
def two_digits (n : Int) : List Char :=
  if 0 ≤ n ∧ n < 10 then '0' :: (toString n).toList else (toString n).toList

/-- The function `strftime` for the conversions `%Y %m %d %H %M %S`. -/
def strftime_chars (date : tm) : List Char → List Char
  | '%' :: c :: r =>
    (if c = 'Y' then (toString (date.tm_year + 1900)).toList
     else if c = 'm' then two_digits (date.tm_mon + 1)
     else if c = 'd' then two_digits date.tm_mday
     else if c = 'H' then two_digits date.tm_hour
     else if c = 'M' then two_digits date.tm_min
     else if c = 'S' then two_digits date.tm_sec
     else [c]) ++ strftime_chars date r
  | c :: r => c :: strftime_chars date r
  | [] => []

/-- The function `strftime`, with no limit on the length. -/
def strftime (format : String) (date : tm) : String :=
  String.mk (strftime_chars date format.toList)

/-- The Julian day of a Unix time: `2440587.5 + t / 86400`, rounded once. -/
def ln_get_julian_from_timet (t : Int) : Double :=
  round_to_double (decide (210866760000 + t < 0)) (210866760000 + t).natAbs 86400

/-- The Unix time of a Julian day, rounded down. -/
def ln_get_timet_from_julian : Double → Int
  | .fin neg m e =>
    (Double.scaled neg m e (min e 0) * 86400 -
        ((210866760000 <<< (-(min e 0)).toNat : Nat) : Int)) /
      ((1 <<< (-(min e 0)).toNat : Nat) : Int)
  | _ => 0

/-- The exact sum of two finite doubles (NaN otherwise). -/
def add : Double → Double → Double
  | .fin n1 m1 e1, .fin n2 m2 e2 =>
    .fin (decide (Double.scaled n1 m1 e1 (min e1 e2) + Double.scaled n2 m2 e2 (min e1 e2) < 0))
      (Double.scaled n1 m1 e1 (min e1 e2) + Double.scaled n2 m2 e2 (min e1 e2)).natAbs
      (min e1 e2)
  | _, _ => .nan

/-- A toy engine with the return values of libnova: north of 66 degrees the object is always
above the horizon (1), south of -66 degrees always below it (-1), and in both cases `rst` is
left as it was; elsewhere (0) it rises a quarter of a day before `jd`, sets a quarter of a
day after it and transits at `jd`. -/
def object_rst (_obj : object) (jd _horizon : Double) (obs : ln_lnlat_posn)
    (rst : ln_rst_time) : Int × ln_rst_time :=
  if obs.lat.gt (Double.ofInt 66) then (1, rst)
  else if (Double.ofInt (-66)).gt obs.lat then (-1, rst)
  else (0, ⟨add jd (.fin true 1 (-2)), add jd (.fin false 1 (-2)), jd⟩)

/-- A toy position query: it fills in the coordinates and the instant it was asked for. -/
def object_pos (_obj : object) (jd : Double) (obs : ln_lnlat_posn)
    (result : object_details) : object_details :=
  { result with jd := jd, hrz := ⟨obs.lng, obs.lat⟩, equ := ⟨jd, obs.lat⟩ }

/-- A toy lookup that knows one place. -/
def geonames_lookup (query : String) (obs : ln_lnlat_posn) : Int × ln_lnlat_posn :=
  if query = "Berlin" then (0, ⟨.fin false 27 (-1), .fin false 105 (-1)⟩) else (1, obs)

end Stub

/-- A concrete set of collaborators: the current time is 2023-06-21 12:00:00 UTC (Julian
day 2460117), the time zone is UTC, and the variables without initialiser hold leftovers. -/
def stub : Env :=
  { PACKAGE_NAME := "calcelestial"
    PACKAGE_VERSION := "0.4"
    PACKAGE_BUGREPORT := "post@steffenvogel.de"
    LIBNOVA_VERSION := "0.15.0"
    LN_SOLAR_STANDART_HORIZON := (Stub.strtod "-0.8333").1
    LN_SOLAR_CIVIL_HORIZON := Double.ofInt (-6)
    LN_SOLAR_NAUTIC_HORIZON := Double.ofInt (-12)
    LN_SOLAR_ASTRONOMICAL_HORIZON := Double.ofInt (-18)
    ln_get_julian_from_sys := .fin false 2460117 0
    ln_get_julian_from_timet := Stub.ln_get_julian_from_timet
    ln_get_timet_from_julian := Stub.ln_get_timet_from_julian
    timezone := 0
    basename := Stub.basename
    getopt_long := Stub.getopt_long
    strtod := Stub.strtod
    strptime := Stub.strptime
    mktime := Stub.mktime
    gmtime := Stub.gmtime
    strftime := Stub.strftime
    atoi := Stub.atoi
    object_from_name := Stub.object_from_name
    object_rst := Stub.object_rst
    object_pos := Stub.object_pos
    geonames_lookup := Stub.geonames_lookup
    result :=
      { jd := .fin true 1 0
        obs := ⟨.fin false 7 0, .fin false 7 0⟩
        rst := ⟨.fin false 3 0, .fin false 4 0, .fin false 5 0⟩
        hrz := ⟨.nan, .nan⟩
        equ := ⟨.nan, .nan⟩ }
    date := ⟨0, 0, 0, 0, 0, 0, 0, 0, -1⟩ }

/-- The build without `GEONAMES_SUPPORT` and without `DEBUG`. -/
def plain : Build := ⟨false, false⟩

/-! ## Derived notions used in the statements -/

/-- The request of a run that passes validation: the variables of `main` after the checks,
or `none` when `main` returns inside the option loop (help, version), when an error was
recorded, or when the behaviour is undefined. -/
def validated (env : Env) (b : Build) (argv : List String) : Option State :=
  match parse_args env b (env.getopt_long argv optstring (long_options b)) (initial env argv) with
  | .done st _ => if (validate env b st).1.error then none else some (validate env b st).1
  | _ => none

/-- The return value of the call `object_rst(obj, jd, horizon, &obs, &result.rst)`. -/
def rst_return (env : Env) (rq : State) : Int :=
  (env.object_rst rq.obj rq.jd rq.horizon rq.obs env.result.rst).1

/-- The contents of `result.rst` after the call of `object_rst`. -/
def rst_times (env : Env) (rq : State) : ln_rst_time :=
  (env.object_rst rq.obj rq.jd rq.horizon rq.obs env.result.rst).2

/-- The standard output of the block `#ifdef DEBUG`: nothing unless the build defines `DEBUG`. -/
def debug_output (env : Env) (b : Build) (rq : State) : List Effect :=
  if b.DEBUG then debug_trace env rq else []

/-- The option characters that have a `case` of their own in the `switch`. -/
def handled (b : Build) : List Char :=
  ['H', 't', 'm', 'f', 'a', 'o', 'p', 'z', 'v', 'h'] ++
    (if b.GEONAMES_SUPPORT then ['q'] else [])

/-- The diagnostic that the specification expects for one option: `invalid twilight` for a
horizon that is neither a keyword nor the start of a number, `invalid date` for a time that
does not parse, `invalid moment` for a moment that is no keyword, `unrecognized option` for
an option without a `case`; `none` for any other option. -/
def diagnostic (env : Env) (b : Build) (c : Char) (optarg : Option String) : Option Effect :=
  if c = 'H' then
    optarg.bind fun s =>
      if s ≠ "civil" ∧ s ≠ "nautic" ∧ s ≠ "astronomical" ∧ (env.strtod s).2 = 0 then
        some (.printf .stderr "invalid twilight: %s\n" [.str (some s)])
      else none
  else if c = 't' then
    optarg.bind fun s =>
      if env.strptime s "%Y-%m-%d %H:%M:%S" env.date = none then
        some (.printf .stderr "invalid date: %s\n" [.str (some s)])
      else none
  else if c = 'm' then
    optarg.bind fun s =>
      if s ≠ "now" ∧ s ≠ "rise" ∧ s ≠ "set" ∧ s ≠ "transit" then
        some (.printf .stderr "invalid moment: %s\n" [.str (some s)])
      else none
  else if c ∈ handled b then none
  else some (.printf .stderr "unrecognized option %s\n" [.str optarg])

/-- The values of the `--object` options among the returns of `getopt_long`, in order. -/
def object_values (evs : List (Char × Option String)) : List String :=
  evs.filterMap (fun e => if e.1 = 'p' then e.2 else none)

/-- The object that the specification expects: the one resolved from the last `--object`
value, or without such an option the one inferred from the basename of `argv[0]`. -/
def selected_object (env : Env) (argv : List String) (evs : List (Char × Option String)) :
    object :=
  match (object_values evs).getLast? with
  | some s => env.object_from_name s false
  | none => env.object_from_name (env.basename argv.head?) false

/-- The instant that the specification expects the position query to get: the reference
instant for `now`, else the instant of that name in the triple of the engine. -/
def selected_instant (env : Env) (rq : State) : Double :=
  match rq.moment with
  | .MOMENT_NOW => rq.jd
  | .MOMENT_RISE => (rst_times env rq).rise
  | .MOMENT_SET => (rst_times env rq).set
  | .MOMENT_TRANSIT => (rst_times env rq).transit

/-- Whether an effect is neither output on `stdout` nor a call of the engine or of the
formatter: a line on the error stream, or the lookup. -/
def Effect.is_silent : Effect → Bool
  | .printf .stderr _ _ => true
  | .geonames_lookup _ => true
  | _ => false

/-- The calls of the lookup in a run that passes validation: one if the build has the lookup
and a query was given. -/
def lookup_calls (b : Build) (st : State) : List Effect :=
  if b.GEONAMES_SUPPORT then
    match st.query with
    | some q => [.geonames_lookup q]
    | none => []
  else []

/-- The request of the stub run `sun -a <lat> -o 0 -m <moment>`: the sun, now, at
longitude 0 and the given latitude, with the default horizon, format and time zone. -/
def sun_at (lat : Double) (m : moment) : State :=
  { horizon := stub.LN_SOLAR_STANDART_HORIZON
    format := "%Y-%m-%d %H:%M:%S"
    query := none
    error := false
    verbose := false
    jd := .fin false 2460117 0
    moment := m
    obj := .OBJECT_SUN
    obs := ⟨.fin false 0 0, lat⟩
    timezone := 0 }

/-- The double 80. -/
def lat_80 : Double := .fin false 5629499534213120 (-46)

/-- The double -80. -/
def lat_minus_80 : Double := .fin true 5629499534213120 (-46)

/-- The double 40. -/
def lat_40 : Double := .fin false 5629499534213120 (-47)

/-! ## The option loop -/

/-- What a pass through the `switch` that goes on with the loop can do to the error flag
and to the trace: nothing, or set the flag and print one line on the error stream. -/
def Quiet_or_diagnosed (st st1 : State) (eff : List Effect) : Prop :=
  (eff = [] ∧ st1.error = st.error) ∨ (∃ f a, eff = [.printf .stderr f a] ∧ st1.error = true)

theorem case_H_next (env : Env) (st st1 : State) (optarg : Option String) (eff : List Effect)
    (h : case_H env st optarg = .next st1 eff) : Quiet_or_diagnosed st st1 eff := by
  unfold case_H at h
  split at h
  · cases h
  · repeat' split at h
    all_goals (injection h with h1 h2; subst h1; subst h2; simp [Quiet_or_diagnosed])

theorem case_t_next (env : Env) (st st1 : State) (optarg : Option String) (eff : List Effect)
    (h : case_t env st optarg = .next st1 eff) : Quiet_or_diagnosed st st1 eff := by
  unfold case_t at h
  split at h
  · cases h
  · repeat' split at h
    all_goals (injection h with h1 h2; subst h1; subst h2; simp [Quiet_or_diagnosed])

theorem case_m_next (st st1 : State) (optarg : Option String) (eff : List Effect)
    (h : case_m st optarg = .next st1 eff) : Quiet_or_diagnosed st st1 eff := by
  unfold case_m at h
  split at h
  · cases h
  · repeat' split at h
    all_goals (injection h with h1 h2; subst h1; subst h2; simp [Quiet_or_diagnosed])

theorem case_f_next (st st1 : State) (optarg : Option String) (eff : List Effect)
    (h : case_f st optarg = .next st1 eff) : Quiet_or_diagnosed st st1 eff := by
  unfold case_f at h
  split at h
  · cases h
  · injection h with h1 h2; subst h1; subst h2; simp [Quiet_or_diagnosed]

theorem case_a_next (env : Env) (st st1 : State) (optarg : Option String) (eff : List Effect)
    (h : case_a env st optarg = .next st1 eff) : Quiet_or_diagnosed st st1 eff := by
  unfold case_a at h
  split at h
  · cases h
  · injection h with h1 h2; subst h1; subst h2; simp [Quiet_or_diagnosed]

theorem case_o_next (env : Env) (st st1 : State) (optarg : Option String) (eff : List Effect)
    (h : case_o env st optarg = .next st1 eff) : Quiet_or_diagnosed st st1 eff := by
  unfold case_o at h
  split at h
  · cases h
  · injection h with h1 h2; subst h1; subst h2; simp [Quiet_or_diagnosed]

theorem case_q_next (st st1 : State) (optarg : Option String) (eff : List Effect)
    (h : case_q st optarg = .next st1 eff) : Quiet_or_diagnosed st st1 eff := by
  unfold case_q at h
  split at h
  · cases h
  · injection h with h1 h2; subst h1; subst h2; simp [Quiet_or_diagnosed]

theorem case_p_next (env : Env) (st st1 : State) (optarg : Option String) (eff : List Effect)
    (h : case_p env st optarg = .next st1 eff) : Quiet_or_diagnosed st st1 eff := by
  unfold case_p at h
  split at h
  · cases h
  · injection h with h1 h2; subst h1; subst h2; simp [Quiet_or_diagnosed]

theorem case_z_next (env : Env) (st st1 : State) (optarg : Option String) (eff : List Effect)
    (h : case_z env st optarg = .next st1 eff) : Quiet_or_diagnosed st st1 eff := by
  unfold case_z at h
  split at h
  · cases h
  · injection h with h1 h2; subst h1; subst h2; simp [Quiet_or_diagnosed]

theorem case_default_next (st st1 : State) (optarg : Option String) (eff : List Effect)
    (h : case_default st optarg = .next st1 eff) : Quiet_or_diagnosed st st1 eff := by
  unfold case_default at h
  injection h with h1 h2; subst h1; subst h2; simp [Quiet_or_diagnosed]

theorem step_next (env : Env) (b : Build) (st st1 : State) (c : Char)
    (optarg : Option String) (eff : List Effect) (h : step env b st c optarg = .next st1 eff) :
    Quiet_or_diagnosed st st1 eff := by
  unfold step at h
  by_cases hH : c = 'H'
  · rw [if_pos hH] at h; exact case_H_next _ _ _ _ _ h
  rw [if_neg hH] at h
  by_cases ht : c = 't'
  · rw [if_pos ht] at h; exact case_t_next _ _ _ _ _ h
  rw [if_neg ht] at h
  by_cases hm : c = 'm'
  · rw [if_pos hm] at h; exact case_m_next _ _ _ _ h
  rw [if_neg hm] at h
  by_cases hf : c = 'f'
  · rw [if_pos hf] at h; exact case_f_next _ _ _ _ h
  rw [if_neg hf] at h
  by_cases ha : c = 'a'
  · rw [if_pos ha] at h; exact case_a_next _ _ _ _ _ h
  rw [if_neg ha] at h
  by_cases ho : c = 'o'
  · rw [if_pos ho] at h; exact case_o_next _ _ _ _ _ h
  rw [if_neg ho] at h
  by_cases hq : c = 'q' ∧ b.GEONAMES_SUPPORT = true
  · rw [if_pos hq] at h; exact case_q_next _ _ _ _ h
  rw [if_neg hq] at h
  by_cases hp : c = 'p'
  · rw [if_pos hp] at h; exact case_p_next _ _ _ _ _ h
  rw [if_neg hp] at h
  by_cases hz : c = 'z'
  · rw [if_pos hz] at h; exact case_z_next _ _ _ _ _ h
  rw [if_neg hz] at h
  by_cases hv : c = 'v'
  · rw [if_pos hv] at h; cases h
  rw [if_neg hv] at h
  by_cases hh : c = 'h'
  · rw [if_pos hh] at h; cases h
  rw [if_neg hh] at h
  exact case_default_next _ _ _ _ h

/-- The option loop unfolded at its first pass. -/
theorem parse_args_cons (env : Env) (b : Build) (c : Char) (optarg : Option String)
    (rest : List (Char × Option String)) (st : State) :
    parse_args env b ((c, optarg) :: rest) st =
      match step env b st c optarg with
      | .undefined => .undefined []
      | .ret eff code => .returned eff code
      | .next st1 eff =>
        match parse_args env b rest st1 with
        | .done st2 eff2 => .done st2 (eff ++ eff2)
        | .returned eff2 code => .returned (eff ++ eff2) code
        | .undefined eff2 => .undefined (eff ++ eff2) := rfl

/-- A loop that ran to its end went through every pass: the first pass continued, and the
rest of the loop ran to its end from there. -/
theorem parse_done_cons (env : Env) (b : Build) (c : Char) (optarg : Option String)
    (rest : List (Char × Option String)) (st st2 : State) (tr : List Effect)
    (h : parse_args env b ((c, optarg) :: rest) st = .done st2 tr) :
    ∃ st1 eff tr2, step env b st c optarg = .next st1 eff ∧
      parse_args env b rest st1 = .done st2 tr2 ∧ tr = eff ++ tr2 := by
  rw [parse_args_cons] at h
  split at h
  · cases h
  · cases h
  · rename_i st1 eff hstep
    split at h
    · rename_i st3 eff2 hrest
      injection h with h1 h2
      subst h1; subst h2
      exact ⟨st1, eff, eff2, hstep, hrest, rfl⟩
    · cases h
    · cases h

/-- The trace of a loop that ran to its end holds lines on the error stream only; the error
flag, once set, stays set; and a loop that leaves the flag clear has printed nothing. -/
theorem parse_done_inv (env : Env) (b : Build) (evs : List (Char × Option String)) :
    ∀ (st st2 : State) (tr : List Effect), parse_args env b evs st = .done st2 tr →
      (∀ e ∈ tr, ∃ f a, e = .printf .stderr f a) ∧
      (st.error = true → st2.error = true) ∧
      (st2.error = false → tr = [] ∧ st.error = false) := by
  induction evs with
  | nil =>
    intro st st2 tr h
    simp only [parse_args] at h
    injection h with h1 h2
    subst h1; subst h2
    simp
  | cons ev rest ih =>
    intro st st2 tr h
    obtain ⟨c, optarg⟩ := ev
    obtain ⟨st1, eff, tr2, hstep, hrest, rfl⟩ := parse_done_cons env b c optarg rest st st2 tr h
    obtain ⟨i1, i2, i3⟩ := ih st1 st2 tr2 hrest
    rcases step_next env b st st1 c optarg eff hstep with ⟨rfl, he⟩ | ⟨f, a, rfl, he⟩
    · refine ⟨by simpa using i1, fun hs => i2 (he ▸ hs), fun h2 => ?_⟩
      obtain ⟨j1, j2⟩ := i3 h2
      exact ⟨by simpa using j1, he ▸ j2⟩
    · refine ⟨?_, fun _ => i2 he, fun h2 => ?_⟩
      · intro e hmem
        rcases List.mem_append.mp hmem with hm | hm
        · exact ⟨f, a, by simpa using hm⟩
        · exact i1 e hm
      · obtain ⟨_, j2⟩ := i3 h2
        rw [he] at j2
        cases j2

/-- Case analysis on the `switch`: a property of the result of every `case` is a property of
the result of `step`. -/
theorem step_cases (env : Env) (b : Build) (st : State) (c : Char) (optarg : Option String)
    (P : StepResult → Prop)
    (hH : c = 'H' → P (case_H env st optarg))
    (ht : c = 't' → P (case_t env st optarg))
    (hm : c = 'm' → P (case_m st optarg))
    (hf : c = 'f' → P (case_f st optarg))
    (ha : c = 'a' → P (case_a env st optarg))
    (ho : c = 'o' → P (case_o env st optarg))
    (hq : c = 'q' → b.GEONAMES_SUPPORT = true → P (case_q st optarg))
    (hp : c = 'p' → P (case_p env st optarg))
    (hz : c = 'z' → P (case_z env st optarg))
    (hv : c = 'v' → P (.ret (version env) EXIT_SUCCESS))
    (hh : c = 'h' → P (.ret (usage env b) EXIT_SUCCESS))
    (hd : c ∉ handled b → P (case_default st optarg)) :
    P (step env b st c optarg) := by
  unfold step
  by_cases h1 : c = 'H'
  · rw [if_pos h1]; exact hH h1
  rw [if_neg h1]
  by_cases h2 : c = 't'
  · rw [if_pos h2]; exact ht h2
  rw [if_neg h2]
  by_cases h3 : c = 'm'
  · rw [if_pos h3]; exact hm h3
  rw [if_neg h3]
  by_cases h4 : c = 'f'
  · rw [if_pos h4]; exact hf h4
  rw [if_neg h4]
  by_cases h5 : c = 'a'
  · rw [if_pos h5]; exact ha h5
  rw [if_neg h5]
  by_cases h6 : c = 'o'
  · rw [if_pos h6]; exact ho h6
  rw [if_neg h6]
  by_cases h7 : c = 'q' ∧ b.GEONAMES_SUPPORT = true
  · rw [if_pos h7]; exact hq h7.1 h7.2
  rw [if_neg h7]
  by_cases h8 : c = 'p'
  · rw [if_pos h8]; exact hp h8
  rw [if_neg h8]
  by_cases h9 : c = 'z'
  · rw [if_pos h9]; exact hz h9
  rw [if_neg h9]
  by_cases h10 : c = 'v'
  · rw [if_pos h10]; exact hv h10
  rw [if_neg h10]
  by_cases h11 : c = 'h'
  · rw [if_pos h11]; exact hh h11
  rw [if_neg h11]
  apply hd
  intro hmem
  unfold handled at hmem
  rcases List.mem_append.mp hmem with hm1 | hm2
  · simp only [List.mem_cons, List.mem_singleton, List.not_mem_nil, or_false] at hm1
    rcases hm1 with h | h | h | h | h | h | h | h | h | h
    · exact h1 h
    · exact h2 h
    · exact h3 h
    · exact h4 h
    · exact h5 h
    · exact h6 h
    · exact h8 h
    · exact h9 h
    · exact h10 h
    · exact h11 h
  · by_cases hg : b.GEONAMES_SUPPORT = true
    · rw [if_pos hg] at hm2
      exact h7 ⟨List.mem_singleton.mp hm2, hg⟩
    · rw [if_neg hg] at hm2
      cases hm2

/-- The pass for `-H` or `--horizon`. -/
theorem step_H (env : Env) (b : Build) (st : State) (optarg : Option String) :
    step env b st 'H' optarg = case_H env st optarg := by
  unfold step
  rw [if_pos rfl]

/-- The pass for `-h` or `--help`. -/
theorem step_h (env : Env) (b : Build) (st : State) (optarg : Option String) :
    step env b st 'h' optarg = .ret (usage env b) EXIT_SUCCESS := by
  unfold step
  rw [if_neg (by decide), if_neg (by decide), if_neg (by decide), if_neg (by decide),
    if_neg (by decide), if_neg (by decide), if_neg (fun h => absurd h.1 (by decide)),
    if_neg (by decide), if_neg (by decide), if_neg (by decide), if_pos rfl]

/-- The pass for `-v` or `--version`. -/
theorem step_v (env : Env) (b : Build) (st : State) (optarg : Option String) :
    step env b st 'v' optarg = .ret (version env) EXIT_SUCCESS := by
  unfold step
  rw [if_neg (by decide), if_neg (by decide), if_neg (by decide), if_neg (by decide),
    if_neg (by decide), if_neg (by decide), if_neg (fun h => absurd h.1 (by decide)),
    if_neg (by decide), if_neg (by decide), if_pos rfl]

/-- The `switch` returns from `main` only in `case 'v'` and `case 'h'`: after `version` or
`usage`, with `EXIT_SUCCESS`. -/
theorem step_ret (env : Env) (b : Build) (st : State) (c : Char) (optarg : Option String) :
    ∀ eff code, step env b st c optarg = .ret eff code →
      code = EXIT_SUCCESS ∧
      ((c = 'v' ∧ eff = version env) ∨ (c = 'h' ∧ eff = usage env b)) := by
  apply step_cases env b st c optarg
    (fun r => ∀ eff code, r = .ret eff code →
      code = EXIT_SUCCESS ∧
      ((c = 'v' ∧ eff = version env) ∨ (c = 'h' ∧ eff = usage env b)))
  · intro _ eff code h
    unfold case_H at h
    repeat' split at h
    all_goals cases h
  · intro _ eff code h
    unfold case_t at h
    repeat' split at h
    all_goals cases h
  · intro _ eff code h
    unfold case_m at h
    repeat' split at h
    all_goals cases h
  · intro _ eff code h
    unfold case_f at h
    split at h <;> cases h
  · intro _ eff code h
    unfold case_a at h
    split at h <;> cases h
  · intro _ eff code h
    unfold case_o at h
    split at h <;> cases h
  · intro _ _ eff code h
    unfold case_q at h
    split at h <;> cases h
  · intro _ eff code h
    unfold case_p at h
    split at h <;> cases h
  · intro _ eff code h
    unfold case_z at h
    split at h <;> cases h
  · intro hc eff code h
    injection h with h1 h2
    exact ⟨h2.symm, Or.inl ⟨hc, h1.symm⟩⟩
  · intro hc eff code h
    injection h with h1 h2
    exact ⟨h2.symm, Or.inr ⟨hc, h1.symm⟩⟩
  · intro _ eff code h
    unfold case_default at h
    cases h

/-- The only way out of `main` from inside the loop is a `return EXIT_SUCCESS`. -/
theorem parse_returned (env : Env) (b : Build) (evs : List (Char × Option String)) :
    ∀ (st : State) (eff : List Effect) (code : Int),
      parse_args env b evs st = .returned eff code → code = EXIT_SUCCESS := by
  induction evs with
  | nil =>
    intro st eff code h
    simp only [parse_args] at h
    cases h
  | cons ev rest ih =>
    intro st eff code h
    obtain ⟨c, optarg⟩ := ev
    rw [parse_args_cons] at h
    split at h
    · cases h
    · rename_i eff1 code1 hstep
      injection h with h1 h2
      subst h2
      exact (step_ret env b st c optarg eff1 code1 hstep).1
    · split at h
      · cases h
      · rename_i hrest
        injection h with h1 h2
        subst h2
        exact ih _ _ _ hrest
      · cases h

/-- The loop over a sequence of returns is the loop over its first part, followed, if that
ran to its end, by the loop over the rest. -/
theorem parse_append (env : Env) (b : Build) (pre post : List (Char × Option String)) :
    ∀ (st st1 : State) (tr : List Effect), parse_args env b pre st = .done st1 tr →
      parse_args env b (pre ++ post) st =
        match parse_args env b post st1 with
        | .done st2 eff2 => .done st2 (tr ++ eff2)
        | .returned eff2 code => .returned (tr ++ eff2) code
        | .undefined eff2 => .undefined (tr ++ eff2) := by
  induction pre with
  | nil =>
    intro st st1 tr h
    simp only [parse_args] at h
    injection h with h1 h2
    subst h1; subst h2
    rw [List.nil_append]
    cases parse_args env b post st <;> simp
  | cons ev rest ih =>
    intro st st1 tr h
    obtain ⟨c, optarg⟩ := ev
    obtain ⟨st0, eff, tr2, hstep, hrest, rfl⟩ := parse_done_cons env b c optarg rest st st1 tr h
    rw [List.cons_append, parse_args_cons, hstep]
    simp only []
    rw [ih st0 st1 tr2 hrest]
    cases parse_args env b post st1 <;> simp

/-! ## What the loop prints -/

theorem diagnostic_H (env : Env) (b : Build) (optarg : Option String) :
    diagnostic env b 'H' optarg =
      optarg.bind fun s =>
        if s ≠ "civil" ∧ s ≠ "nautic" ∧ s ≠ "astronomical" ∧ (env.strtod s).2 = 0 then
          some (.printf .stderr "invalid twilight: %s\n" [.str (some s)])
        else none := by
  unfold diagnostic
  rw [if_pos rfl]

theorem diagnostic_t (env : Env) (b : Build) (optarg : Option String) :
    diagnostic env b 't' optarg =
      optarg.bind fun s =>
        if env.strptime s "%Y-%m-%d %H:%M:%S" env.date = none then
          some (.printf .stderr "invalid date: %s\n" [.str (some s)])
        else none := by
  unfold diagnostic
  rw [if_neg (by decide), if_pos rfl]

theorem diagnostic_m (env : Env) (b : Build) (optarg : Option String) :
    diagnostic env b 'm' optarg =
      optarg.bind fun s =>
        if s ≠ "now" ∧ s ≠ "rise" ∧ s ≠ "set" ∧ s ≠ "transit" then
          some (.printf .stderr "invalid moment: %s\n" [.str (some s)])
        else none := by
  unfold diagnostic
  rw [if_neg (by decide), if_neg (by decide), if_pos rfl]

theorem diagnostic_handled (env : Env) (b : Build) (c : Char) (optarg : Option String)
    (h1 : c ≠ 'H') (h2 : c ≠ 't') (h3 : c ≠ 'm') (h : c ∈ handled b) :
    diagnostic env b c optarg = none := by
  unfold diagnostic
  rw [if_neg h1, if_neg h2, if_neg h3, if_pos h]

theorem diagnostic_default (env : Env) (b : Build) (c : Char) (optarg : Option String)
    (h : c ∉ handled b) :
    diagnostic env b c optarg =
      some (.printf .stderr "unrecognized option %s\n" [.str optarg]) := by
  have h1 : c ≠ 'H' := fun e => h (by subst e; simp [handled])
  have h2 : c ≠ 't' := fun e => h (by subst e; simp [handled])
  have h3 : c ≠ 'm' := fun e => h (by subst e; simp [handled])
  unfold diagnostic
  rw [if_neg h1, if_neg h2, if_neg h3, if_neg h]

/-- What a pass through the `switch` that goes on with the loop prints and does to the error
flag: it prints the diagnostic of the option, if the option has one, and then sets the flag. -/
theorem step_diagnostic (env : Env) (b : Build) (st : State) (c : Char)
    (optarg : Option String) :
    ∀ st1 eff, step env b st c optarg = .next st1 eff →
      eff = (diagnostic env b c optarg).toList ∧
      st1.error = (st.error || (diagnostic env b c optarg).isSome) := by
  apply step_cases env b st c optarg
    (fun r => ∀ st1 eff, r = .next st1 eff →
      eff = (diagnostic env b c optarg).toList ∧
      st1.error = (st.error || (diagnostic env b c optarg).isSome))
  · intro hc st1 eff h
    subst hc
    rw [diagnostic_H]
    unfold case_H at h
    split at h
    · cases h
    · repeat' split at h
      all_goals (injection h with h1 h2; subst h1; subst h2; simp [*])
  · intro hc st1 eff h
    subst hc
    rw [diagnostic_t]
    unfold case_t at h
    split at h
    · cases h
    · repeat' split at h
      all_goals (injection h with h1 h2; subst h1; subst h2; simp [*])
  · intro hc st1 eff h
    subst hc
    rw [diagnostic_m]
    unfold case_m at h
    split at h
    · cases h
    · repeat' split at h
      all_goals (injection h with h1 h2; subst h1; subst h2; simp [*])
  · intro hc st1 eff h
    subst hc
    rw [diagnostic_handled env b 'f' optarg (by decide) (by decide) (by decide)
      (by simp [handled])]
    unfold case_f at h
    split at h
    · cases h
    · injection h with h1 h2; subst h1; subst h2; simp
  · intro hc st1 eff h
    subst hc
    rw [diagnostic_handled env b 'a' optarg (by decide) (by decide) (by decide)
      (by simp [handled])]
    unfold case_a at h
    split at h
    · cases h
    · injection h with h1 h2; subst h1; subst h2; simp
  · intro hc st1 eff h
    subst hc
    rw [diagnostic_handled env b 'o' optarg (by decide) (by decide) (by decide)
      (by simp [handled])]
    unfold case_o at h
    split at h
    · cases h
    · injection h with h1 h2; subst h1; subst h2; simp
  · intro hc hg st1 eff h
    subst hc
    rw [diagnostic_handled env b 'q' optarg (by decide) (by decide) (by decide)
      (by simp [handled, hg])]
    unfold case_q at h
    split at h
    · cases h
    · injection h with h1 h2; subst h1; subst h2; simp
  · intro hc st1 eff h
    subst hc
    rw [diagnostic_handled env b 'p' optarg (by decide) (by decide) (by decide)
      (by simp [handled])]
    unfold case_p at h
    split at h
    · cases h
    · injection h with h1 h2; subst h1; subst h2; simp
  · intro hc st1 eff h
    subst hc
    rw [diagnostic_handled env b 'z' optarg (by decide) (by decide) (by decide)
      (by simp [handled])]
    unfold case_z at h
    split at h
    · cases h
    · injection h with h1 h2; subst h1; subst h2; simp
  · intro _ st1 eff h
    cases h
  · intro _ st1 eff h
    cases h
  · intro hc st1 eff h
    rw [diagnostic_default env b c optarg hc]
    unfold case_default at h
    injection h with h1 h2; subst h1; subst h2; simp

/-- The trace of a loop that ran to its end is the sequence of the diagnostics of its options,
and the error flag is set at the end exactly if it was set before or an option has one. -/
theorem parse_trace (env : Env) (b : Build) (evs : List (Char × Option String)) :
    ∀ (st st2 : State) (tr : List Effect), parse_args env b evs st = .done st2 tr →
      tr = evs.filterMap (fun e => diagnostic env b e.1 e.2) ∧
      st2.error = (st.error || evs.any (fun e => (diagnostic env b e.1 e.2).isSome)) := by
  induction evs with
  | nil =>
    intro st st2 tr h
    simp only [parse_args] at h
    injection h with h1 h2
    subst h1; subst h2
    simp
  | cons ev rest ih =>
    intro st st2 tr h
    obtain ⟨c, optarg⟩ := ev
    obtain ⟨st1, eff, tr2, hstep, hrest, rfl⟩ := parse_done_cons env b c optarg rest st st2 tr h
    obtain ⟨i1, i2⟩ := ih st1 st2 tr2 hrest
    obtain ⟨d1, d2⟩ := step_diagnostic env b st c optarg st1 eff hstep
    subst d1; subst i1
    refine ⟨?_, ?_⟩
    · cases hd : diagnostic env b c optarg <;> simp [List.filterMap_cons, hd]
    · rw [i2, d2, List.any_cons, Bool.or_assoc]

/-- The diagnostics of a loop that ran to its end are silent. -/
theorem parse_silent (env : Env) (b : Build) (evs : List (Char × Option String))
    (st st2 : State) (tr : List Effect) (h : parse_args env b evs st = .done st2 tr) :
    ∀ e ∈ tr, e.is_silent = true := by
  intro e he
  obtain ⟨f, a, rfl⟩ := (parse_done_inv env b evs st st2 tr h).1 e he
  rfl

/-! ## The loop runs to its end -/

/-- A pass through the `switch` goes on with the loop unless the option is help or version,
provided `optarg` is not null for an option that has a `case`. -/
theorem step_total (env : Env) (b : Build) (st : State) (c : Char) (optarg : Option String)
    (hh : c ≠ 'h') (hv : c ≠ 'v') (harg : optarg = none → c ∉ handled b) :
    ∃ st1 eff, step env b st c optarg = .next st1 eff := by
  apply step_cases env b st c optarg (fun r => ∃ st1 eff, r = .next st1 eff)
  · intro hc
    cases optarg with
    | none => exact absurd (by subst hc; simp [handled]) (harg rfl)
    | some s =>
      simp only [case_H]
      repeat' split
      all_goals exact ⟨_, _, rfl⟩
  · intro hc
    cases optarg with
    | none => exact absurd (by subst hc; simp [handled]) (harg rfl)
    | some s =>
      simp only [case_t]
      repeat' split
      all_goals exact ⟨_, _, rfl⟩
  · intro hc
    cases optarg with
    | none => exact absurd (by subst hc; simp [handled]) (harg rfl)
    | some s =>
      simp only [case_m]
      repeat' split
      all_goals exact ⟨_, _, rfl⟩
  · intro hc
    cases optarg with
    | none => exact absurd (by subst hc; simp [handled]) (harg rfl)
    | some s => exact ⟨_, _, rfl⟩
  · intro hc
    cases optarg with
    | none => exact absurd (by subst hc; simp [handled]) (harg rfl)
    | some s => exact ⟨_, _, rfl⟩
  · intro hc
    cases optarg with
    | none => exact absurd (by subst hc; simp [handled]) (harg rfl)
    | some s => exact ⟨_, _, rfl⟩
  · intro hc hg
    cases optarg with
    | none => exact absurd (by subst hc; simp [handled, hg]) (harg rfl)
    | some s => exact ⟨_, _, rfl⟩
  · intro hc
    cases optarg with
    | none => exact absurd (by subst hc; simp [handled]) (harg rfl)
    | some s => exact ⟨_, _, rfl⟩
  · intro hc
    cases optarg with
    | none => exact absurd (by subst hc; simp [handled]) (harg rfl)
    | some s => exact ⟨_, _, rfl⟩
  · intro hc
    exact absurd hc hv
  · intro hc
    exact absurd hc hh
  · intro _
    exact ⟨_, _, rfl⟩

/-- The loop runs to its end when no return of `getopt_long` is help or version, provided
`optarg` is not null for the options that have a `case`, as `getopt_long` guarantees for the
options that take an argument. -/
theorem parse_total (env : Env) (b : Build) (evs : List (Char × Option String)) :
    ∀ (st : State),
      (∀ e ∈ evs, e.1 ≠ 'h' ∧ e.1 ≠ 'v' ∧ (e.2 = none → e.1 ∉ handled b)) →
      ∃ st2 tr, parse_args env b evs st = .done st2 tr := by
  induction evs with
  | nil => intro st _; exact ⟨st, [], rfl⟩
  | cons ev rest ih =>
    intro st h
    obtain ⟨c, optarg⟩ := ev
    obtain ⟨h1, h2, h3⟩ := h (c, optarg) (List.mem_cons_self _ _)
    obtain ⟨st1, eff, hstep⟩ := step_total env b st c optarg h1 h2 h3
    obtain ⟨st2, tr, hrest⟩ := ih st1 (fun e he => h e (List.mem_cons_of_mem _ he))
    refine ⟨st2, eff ++ tr, ?_⟩
    rw [parse_args_cons, hstep]
    simp only []
    rw [hrest]

/-! ## What the loop keeps -/

/-- A pass through the `switch` writes the horizon only in `case 'H'`, the object only in
`case 'p'`, where it becomes the object of the given name, the latitude only in `case 'a'` and
the longitude only in `case 'o'`. -/
theorem step_frame (env : Env) (b : Build) (st : State) (c : Char) (optarg : Option String) :
    ∀ st1 eff, step env b st c optarg = .next st1 eff →
      (c ≠ 'H' → st1.horizon = st.horizon) ∧
      (c ≠ 'p' → st1.obj = st.obj) ∧
      (c = 'p' → ∀ s, optarg = some s → st1.obj = env.object_from_name s false) ∧
      (c = 'p' → optarg ≠ none) ∧
      (c ≠ 'a' → st1.obs.lat = st.obs.lat) ∧ (c ≠ 'o' → st1.obs.lng = st.obs.lng) := by
  apply step_cases env b st c optarg
    (fun r => ∀ st1 eff, r = .next st1 eff →
      (c ≠ 'H' → st1.horizon = st.horizon) ∧
      (c ≠ 'p' → st1.obj = st.obj) ∧
      (c = 'p' → ∀ s, optarg = some s → st1.obj = env.object_from_name s false) ∧
      (c = 'p' → optarg ≠ none) ∧
      (c ≠ 'a' → st1.obs.lat = st.obs.lat) ∧ (c ≠ 'o' → st1.obs.lng = st.obs.lng))
  · intro hc st1 eff h
    subst hc
    unfold case_H at h
    split at h
    · cases h
    · repeat' split at h
      all_goals (injection h with h1 h2; subst h1; subst h2; simp)
  · intro hc st1 eff h
    subst hc
    unfold case_t at h
    split at h
    · cases h
    · repeat' split at h
      all_goals (injection h with h1 h2; subst h1; subst h2; simp)
  · intro hc st1 eff h
    subst hc
    unfold case_m at h
    split at h
    · cases h
    · repeat' split at h
      all_goals (injection h with h1 h2; subst h1; subst h2; simp)
  · intro hc st1 eff h
    subst hc
    unfold case_f at h
    split at h
    · cases h
    · injection h with h1 h2; subst h1; subst h2; simp
  · intro hc st1 eff h
    subst hc
    unfold case_a at h
    split at h
    · cases h
    · injection h with h1 h2; subst h1; subst h2; simp
  · intro hc st1 eff h
    subst hc
    unfold case_o at h
    split at h
    · cases h
    · injection h with h1 h2; subst h1; subst h2; simp
  · intro hc _ st1 eff h
    subst hc
    unfold case_q at h
    split at h
    · cases h
    · injection h with h1 h2; subst h1; subst h2; simp
  · intro hc st1 eff h
    subst hc
    unfold case_p at h
    split at h
    · cases h
    · injection h with h1 h2; subst h1; subst h2; simp
  · intro hc st1 eff h
    subst hc
    unfold case_z at h
    split at h
    · cases h
    · injection h with h1 h2; subst h1; subst h2; simp
  · intro _ st1 eff h
    cases h
  · intro _ st1 eff h
    cases h
  · intro hc st1 eff h
    have h1 : c ≠ 'H' := fun e => hc (by subst e; simp [handled])
    have h2 : c ≠ 'p' := fun e => hc (by subst e; simp [handled])
    unfold case_default at h
    injection h with h3 h4; subst h3; subst h4; simp [h1, h2]

/-- Without a `--horizon` option the loop leaves the horizon as it was. -/
theorem parse_horizon (env : Env) (b : Build) (evs : List (Char × Option String)) :
    ∀ (st st2 : State) (tr : List Effect), (∀ e ∈ evs, e.1 ≠ 'H') →
      parse_args env b evs st = .done st2 tr → st2.horizon = st.horizon := by
  induction evs with
  | nil =>
    intro st st2 tr _ h
    simp only [parse_args] at h
    injection h with h1 h2
    subst h1; rfl
  | cons ev rest ih =>
    intro st st2 tr hno h
    obtain ⟨c, optarg⟩ := ev
    obtain ⟨st1, eff, tr2, hstep, hrest, -⟩ := parse_done_cons env b c optarg rest st st2 tr h
    have hc : c ≠ 'H' := hno (c, optarg) (List.mem_cons_self _ _)
    rw [ih st1 st2 tr2 (fun e he => hno e (List.mem_cons_of_mem _ he)) hrest]
    exact (step_frame env b st c optarg st1 eff hstep).1 hc

/-- After the loop the object is the one named by the last `--object` option, or the one it
was before the loop when there is no such option. -/
theorem parse_obj (env : Env) (b : Build) (evs : List (Char × Option String)) :
    ∀ (st st2 : State) (tr : List Effect), parse_args env b evs st = .done st2 tr →
      st2.obj =
        match (object_values evs).getLast? with
        | some s => env.object_from_name s false
        | none => st.obj := by
  induction evs with
  | nil =>
    intro st st2 tr h
    simp only [parse_args] at h
    injection h with h1 h2
    subst h1; rfl
  | cons ev rest ih =>
    intro st st2 tr h
    obtain ⟨c, optarg⟩ := ev
    obtain ⟨st1, eff, tr2, hstep, hrest, -⟩ := parse_done_cons env b c optarg rest st st2 tr h
    obtain ⟨-, f2, f3, f4, -, -⟩ := step_frame env b st c optarg st1 eff hstep
    rw [ih st1 st2 tr2 hrest]
    by_cases hc : c = 'p'
    · cases optarg with
      | none => exact absurd rfl (f4 hc)
      | some s =>
        have hv : object_values ((c, some s) :: rest) = s :: object_values rest := by
          simp [object_values, hc]
        rw [hv, List.getLast?_cons]
        cases hl : (object_values rest).getLast? with
        | none => simpa using f3 hc s rfl
        | some s2 => simp
    · have hv : object_values ((c, optarg) :: rest) = object_values rest := by
        simp [object_values, hc]
      rw [hv, f2 hc]

/-- Without a `--lat` option the loop leaves the latitude as it was, and without a `--lon`
option the longitude. -/
theorem parse_obs (env : Env) (b : Build) (evs : List (Char × Option String)) :
    ∀ (st st2 : State) (tr : List Effect), parse_args env b evs st = .done st2 tr →
      ((∀ e ∈ evs, e.1 ≠ 'a') → st2.obs.lat = st.obs.lat) ∧
      ((∀ e ∈ evs, e.1 ≠ 'o') → st2.obs.lng = st.obs.lng) := by
  induction evs with
  | nil =>
    intro st st2 tr h
    simp only [parse_args] at h
    injection h with h1 h2
    subst h1
    exact ⟨fun _ => rfl, fun _ => rfl⟩
  | cons ev rest ih =>
    intro st st2 tr h
    obtain ⟨c, optarg⟩ := ev
    obtain ⟨st1, eff, tr2, hstep, hrest, -⟩ := parse_done_cons env b c optarg rest st st2 tr h
    obtain ⟨i1, i2⟩ := ih st1 st2 tr2 hrest
    obtain ⟨-, -, -, -, f1, f2⟩ := step_frame env b st c optarg st1 eff hstep
    refine ⟨fun hno => ?_, fun hno => ?_⟩
    · rw [i1 (fun e he => hno e (List.mem_cons_of_mem _ he)),
        f1 (hno (c, optarg) (List.mem_cons_self _ _))]
    · rw [i2 (fun e he => hno e (List.mem_cons_of_mem _ he)),
        f2 (hno (c, optarg) (List.mem_cons_self _ _))]

/-! ## The checks after the loop -/

theorem validate_obj_props (st : State) :
    (validate_obj st).1.horizon = st.horizon ∧ (validate_obj st).1.jd = st.jd ∧
    (validate_obj st).1.moment = st.moment ∧ (validate_obj st).1.obj = st.obj ∧
    (validate_obj st).1.format = st.format ∧ (validate_obj st).1.timezone = st.timezone ∧
    (validate_obj st).1.query = st.query ∧ (validate_obj st).1.obs = st.obs ∧
    (st.error = true → (validate_obj st).1.error = true) ∧
    ((validate_obj st).1.error = false →
      st.error = false ∧ st.obj ≠ .OBJECT_INVALID ∧ (validate_obj st).2 = []) ∧
    (∀ e ∈ (validate_obj st).2, e.is_silent = true) ∧
    (st.obj = .OBJECT_INVALID → (validate_obj st).1.error = true ∧
      .printf .stderr "invalid object\n" [] ∈ (validate_obj st).2) := by
  unfold validate_obj
  split <;> simp [*, Effect.is_silent]

theorem validate_query_props (env : Env) (b : Build) (st : State) :
    (validate_query env b st).1.horizon = st.horizon ∧ (validate_query env b st).1.jd = st.jd ∧
    (validate_query env b st).1.moment = st.moment ∧ (validate_query env b st).1.obj = st.obj ∧
    (validate_query env b st).1.format = st.format ∧
    (validate_query env b st).1.timezone = st.timezone ∧
    (validate_query env b st).1.query = st.query ∧
    (st.error = true → (validate_query env b st).1.error = true) ∧
    ((validate_query env b st).1.error = false →
      st.error = false ∧ (validate_query env b st).2 = lookup_calls b st) ∧
    (∀ e ∈ (validate_query env b st).2, e.is_silent = true) ∧
    (lookup_calls b st = [] → (validate_query env b st).1.obs = st.obs) := by
  unfold validate_query lookup_calls
  split
  · split
    · simp [*]
    · split <;> simp [*, Effect.is_silent]
  · simp

theorem validate_lat_props (st : State) :
    (validate_lat st).1.horizon = st.horizon ∧ (validate_lat st).1.jd = st.jd ∧
    (validate_lat st).1.moment = st.moment ∧ (validate_lat st).1.obj = st.obj ∧
    (validate_lat st).1.format = st.format ∧ (validate_lat st).1.timezone = st.timezone ∧
    (validate_lat st).1.query = st.query ∧ (validate_lat st).1.obs = st.obs ∧
    (st.error = true → (validate_lat st).1.error = true) ∧
    ((validate_lat st).1.error = false →
      st.error = false ∧ (st.obs.lat.fabs).gt (Double.ofInt 90) = false ∧
      (validate_lat st).2 = []) ∧
    (∀ e ∈ (validate_lat st).2, e.is_silent = true) ∧
    ((st.obs.lat.fabs).gt (Double.ofInt 90) = true → (validate_lat st).1.error = true ∧
      .printf .stderr "invalid latitude\n" [] ∈ (validate_lat st).2) := by
  unfold validate_lat
  split <;> simp [*, Effect.is_silent]

theorem validate_lng_props (st : State) :
    (validate_lng st).1.horizon = st.horizon ∧ (validate_lng st).1.jd = st.jd ∧
    (validate_lng st).1.moment = st.moment ∧ (validate_lng st).1.obj = st.obj ∧
    (validate_lng st).1.format = st.format ∧ (validate_lng st).1.timezone = st.timezone ∧
    (validate_lng st).1.query = st.query ∧ (validate_lng st).1.obs = st.obs ∧
    (st.error = true → (validate_lng st).1.error = true) ∧
    ((validate_lng st).1.error = false →
      st.error = false ∧ (st.obs.lng.fabs).gt (Double.ofInt 180) = false ∧
      (validate_lng st).2 = []) ∧
    (∀ e ∈ (validate_lng st).2, e.is_silent = true) ∧
    ((st.obs.lng.fabs).gt (Double.ofInt 180) = true → (validate_lng st).1.error = true ∧
      .printf .stderr "invalid longitude\n" [] ∈ (validate_lng st).2) := by
  unfold validate_lng
  split <;> simp [*, Effect.is_silent]

/-- The checks change only `error` and, through the lookup, `obs`. -/
theorem validate_fields (env : Env) (b : Build) (st : State) :
    (validate env b st).1.horizon = st.horizon ∧ (validate env b st).1.jd = st.jd ∧
    (validate env b st).1.moment = st.moment ∧ (validate env b st).1.obj = st.obj ∧
    (validate env b st).1.format = st.format ∧ (validate env b st).1.timezone = st.timezone ∧
    (validate env b st).1.query = st.query := by
  obtain ⟨a1, a2, a3, a4, a5, a6, a7, -⟩ := validate_obj_props st
  obtain ⟨b1, b2, b3, b4, b5, b6, b7, -⟩ := validate_query_props env b (validate_obj st).1
  obtain ⟨c1, c2, c3, c4, c5, c6, c7, -⟩ :=
    validate_lat_props (validate_query env b (validate_obj st).1).1
  obtain ⟨d1, d2, d3, d4, d5, d6, d7, -⟩ :=
    validate_lng_props (validate_lat (validate_query env b (validate_obj st).1).1).1
  simp only [validate]
  exact ⟨by rw [d1, c1, b1, a1], by rw [d2, c2, b2, a2], by rw [d3, c3, b3, a3],
    by rw [d4, c4, b4, a4], by rw [d5, c5, b5, a5], by rw [d6, c6, b6, a6],
    by rw [d7, c7, b7, a7]⟩

/-- The checks never clear the error flag. -/
theorem validate_error_mono (env : Env) (b : Build) (st : State) (h : st.error = true) :
    (validate env b st).1.error = true := by
  obtain ⟨-, -, -, -, -, -, -, -, a, -⟩ := validate_obj_props st
  obtain ⟨-, -, -, -, -, -, -, b1, -⟩ := validate_query_props env b (validate_obj st).1
  obtain ⟨-, -, -, -, -, -, -, -, c, -⟩ :=
    validate_lat_props (validate_query env b (validate_obj st).1).1
  obtain ⟨-, -, -, -, -, -, -, -, d, -⟩ :=
    validate_lng_props (validate_lat (validate_query env b (validate_obj st).1).1).1
  simp only [validate]
  exact d (c (b1 (a h)))

/-- The checks print on the error stream and call the lookup, and do nothing else. -/
theorem validate_silent (env : Env) (b : Build) (st : State) :
    ∀ e ∈ (validate env b st).2, e.is_silent = true := by
  obtain ⟨-, -, -, -, -, -, -, -, -, -, a, -⟩ := validate_obj_props st
  obtain ⟨-, -, -, -, -, -, -, -, -, b1, -⟩ := validate_query_props env b (validate_obj st).1
  obtain ⟨-, -, -, -, -, -, -, -, -, -, c, -⟩ :=
    validate_lat_props (validate_query env b (validate_obj st).1).1
  obtain ⟨-, -, -, -, -, -, -, -, -, -, d, -⟩ :=
    validate_lng_props (validate_lat (validate_query env b (validate_obj st).1).1).1
  simp only [validate]
  intro e he
  rcases List.mem_append.mp he with he | he
  · rcases List.mem_append.mp he with he | he
    · rcases List.mem_append.mp he with he | he
      · exact a e he
      · exact b1 e he
    · exact c e he
  · exact d e he

/-- A request that passes the checks: no error was recorded in the loop, the object is known,
neither `fabs(obs.lat) > 90` nor `fabs(obs.lng) > 180` holds, and the checks did nothing
but call the lookup. -/
theorem validate_ok (env : Env) (b : Build) (st : State)
    (h : (validate env b st).1.error = false) :
    st.error = false ∧ st.obj ≠ .OBJECT_INVALID ∧
    ((validate env b st).1.obs.lat.fabs).gt (Double.ofInt 90) = false ∧
    ((validate env b st).1.obs.lng.fabs).gt (Double.ofInt 180) = false ∧
    (validate env b st).2 = lookup_calls b st := by
  obtain ⟨-, -, -, -, -, -, a7, -, -, a, -⟩ := validate_obj_props st
  obtain ⟨-, -, -, -, -, -, -, -, b1, -⟩ := validate_query_props env b (validate_obj st).1
  obtain ⟨-, -, -, -, -, -, -, c8, -, c, -⟩ :=
    validate_lat_props (validate_query env b (validate_obj st).1).1
  obtain ⟨-, -, -, -, -, -, -, d8, -, d, -⟩ :=
    validate_lng_props (validate_lat (validate_query env b (validate_obj st).1).1).1
  simp only [validate] at h ⊢
  obtain ⟨h3, hlng, e4⟩ := d h
  obtain ⟨h2, hlat, e3⟩ := c h3
  obtain ⟨h1, e2⟩ := b1 h2
  obtain ⟨h0, hobj, e1⟩ := a h1
  refine ⟨h0, hobj, ?_, ?_, ?_⟩
  · rw [d8, c8]; exact hlat
  · rw [d8]; exact hlng
  · rw [e1, e2, e3, e4]
    simp [lookup_calls, a7]

/-- An unknown object fails the checks. -/
theorem validate_invalid_object (env : Env) (b : Build) (st : State)
    (h : st.obj = .OBJECT_INVALID) :
    (validate env b st).1.error = true ∧
    .printf .stderr "invalid object\n" [] ∈ (validate env b st).2 := by
  obtain ⟨-, -, -, -, -, -, -, -, -, -, -, a⟩ := validate_obj_props st
  obtain ⟨-, -, -, -, -, -, -, b1, -⟩ := validate_query_props env b (validate_obj st).1
  obtain ⟨-, -, -, -, -, -, -, -, c, -⟩ :=
    validate_lat_props (validate_query env b (validate_obj st).1).1
  obtain ⟨-, -, -, -, -, -, -, -, d, -⟩ :=
    validate_lng_props (validate_lat (validate_query env b (validate_obj st).1).1).1
  simp only [validate]
  exact ⟨d (c (b1 (a h).1)), by simp [(a h).2]⟩

/-- Coordinates for which `fabs(obs.lat) > 90` or `fabs(obs.lng) > 180` holds after the
lookup fail the checks. -/
theorem validate_bad_coordinates (env : Env) (b : Build) (st : State)
    (h : ((validate env b st).1.obs.lat.fabs).gt (Double.ofInt 90) = true ∨
      ((validate env b st).1.obs.lng.fabs).gt (Double.ofInt 180) = true) :
    (validate env b st).1.error = true := by
  cases hc : (validate env b st).1.error with
  | true => rfl
  | false =>
    obtain ⟨-, -, h1, h2, -⟩ := validate_ok env b st hc
    rcases h with h | h
    · rw [h1] at h; cases h
    · rw [h2] at h; cases h

/-- Without a lookup the checks leave the coordinates as the loop set them. -/
theorem validate_obs (env : Env) (b : Build) (st : State) (h : lookup_calls b st = []) :
    (validate env b st).1.obs = st.obs := by
  obtain ⟨-, -, -, -, -, -, a7, a8, -⟩ := validate_obj_props st
  obtain ⟨-, -, -, -, -, -, -, -, -, -, b1⟩ := validate_query_props env b (validate_obj st).1
  obtain ⟨-, -, -, -, -, -, -, c8, -⟩ :=
    validate_lat_props (validate_query env b (validate_obj st).1).1
  obtain ⟨-, -, -, -, -, -, -, d8, -⟩ :=
    validate_lng_props (validate_lat (validate_query env b (validate_obj st).1).1).1
  simp only [validate]
  rw [d8, c8, b1 (by simpa [lookup_calls, a7] using h), a8]

/-! ## Kinds of effects -/

/-- The tables `long_options` and `long_options_descs` have the same number of entries. -/
theorem tables_aligned (b : Build) :
    (long_options b).length = (long_options_descs b).length := by
  unfold long_options long_options_descs
  cases b.GEONAMES_SUPPORT <;> rfl

theorem silent_effect (e : Effect) (h : e.is_silent = true) :
    e.on_stdout = false ∧ e.is_engine = false ∧ e.is_formatter = false := by
  cases e with
  | printf s f a => cases s <;> simp_all [Effect.is_silent, Effect.on_stdout, Effect.is_engine,
      Effect.is_formatter]
  | object_rst o j h p => simp [Effect.is_silent] at h
  | object_pos o j p => simp [Effect.is_silent] at h
  | format_result f r t => simp [Effect.is_silent] at h
  | geonames_lookup q => simp [Effect.on_stdout, Effect.is_engine, Effect.is_formatter]

theorem usage_loop_effects (ops : List option) :
    ∀ (descs : List String), ∀ e ∈ usage_loop ops descs,
      e.on_stdout = true ∧ e.is_engine = false ∧ e.is_formatter = false := by
  induction ops with
  | nil => intro descs e he; simp [usage_loop] at he
  | cons op ops ih =>
    intro descs e he
    cases descs with
    | nil => simp [usage_loop] at he
    | cons d ds =>
      simp only [usage_loop, List.mem_cons] at he
      rcases he with rfl | he
      · simp [Effect.on_stdout, Effect.is_engine, Effect.is_formatter]
      · exact ih ds e he

/-- Everything `usage` does is a `printf`, which writes to `stdout`. -/
theorem usage_effects (env : Env) (b : Build) :
    ∀ e ∈ usage env b, e.on_stdout = true ∧ e.is_engine = false ∧ e.is_formatter = false := by
  intro e he
  unfold usage at he
  rcases List.mem_append.mp he with he | he
  · rcases List.mem_append.mp he with he | he
    · simp only [List.mem_cons, List.mem_singleton, List.not_mem_nil, or_false] at he
      rcases he with rfl | rfl <;> simp [Effect.on_stdout, Effect.is_engine, Effect.is_formatter]
    · exact usage_loop_effects _ _ e he
  · simp only [List.mem_cons, List.mem_singleton, List.not_mem_nil, or_false] at he
    rcases he with rfl | rfl <;> simp [Effect.on_stdout, Effect.is_engine, Effect.is_formatter]

/-- Everything `version` does is a `printf`, which writes to `stdout`. -/
theorem version_effects (env : Env) :
    ∀ e ∈ version env, e.on_stdout = true ∧ e.is_engine = false ∧ e.is_formatter = false := by
  intro e he
  unfold version at he
  simp only [List.mem_cons, List.mem_singleton, List.not_mem_nil, or_false] at he
  rcases he with rfl | rfl <;> simp [Effect.on_stdout, Effect.is_engine, Effect.is_formatter]

theorem stdout_of_append (l1 l2 : List Effect) :
    stdout_of (l1 ++ l2) = stdout_of l1 ++ stdout_of l2 := by
  simp [stdout_of]

theorem stdout_of_silent (l : List Effect) (h : ∀ e ∈ l, e.is_silent = true) :
    stdout_of l = [] := by
  unfold stdout_of
  rw [List.filter_eq_nil_iff]
  intro e he
  simp [(silent_effect e (h e he)).1]

theorem stdout_of_usage (env : Env) (b : Build) : stdout_of (usage env b) = usage env b := by
  unfold stdout_of
  rw [List.filter_eq_self]
  intro e he
  exact (usage_effects env b e he).1

theorem stdout_of_version (env : Env) : stdout_of (version env) = version env := by
  unfold stdout_of
  rw [List.filter_eq_self]
  intro e he
  exact (version_effects env e he).1

theorem lookup_calls_silent (b : Build) (st : State) :
    ∀ e ∈ lookup_calls b st, e.is_silent = true := by
  intro e he
  unfold lookup_calls at he
  split at he
  · split at he
    · simp only [List.mem_singleton] at he
      subst he
      rfl
    · cases he
  · cases he

theorem debug_output_stdout (env : Env) (b : Build) (rq : State) :
    stdout_of (debug_output env b rq) = debug_output env b rq := by
  unfold debug_output
  split
  · rfl
  · rfl

theorem debug_output_effects (env : Env) (b : Build) (rq : State) :
    ∀ e ∈ debug_output env b rq, e.is_engine = false ∧ e.is_formatter = false := by
  intro e he
  unfold debug_output at he
  split at he
  · unfold debug_trace at he
    simp only [List.mem_cons, List.mem_singleton, List.not_mem_nil, or_false] at he
    rcases he with rfl | rfl | rfl | rfl | rfl | rfl <;>
      simp [Effect.is_engine, Effect.is_formatter]
  · cases he

/-! ## The engine phase -/

/-- The engine returns 1 and the moment is not `now`: the diagnostic and the reserved status. -/
theorem calculate_circumpolar (env : Env) (rq : State) (h1 : rst_return env rq = 1)
    (hm : rq.moment ≠ .MOMENT_NOW) :
    calculate env rq =
      ⟨[ .object_rst rq.obj rq.jd rq.horizon rq.obs,
         .printf .stderr "object is circumpolar\n" [] ], some EXIT_CIRCUMPOLAR⟩ := by
  unfold rst_return at h1
  unfold calculate
  simp only []
  rw [if_pos h1, if_pos hm]

/-- The engine returns 1 and the moment is `now`: no statement assigns `result.jd`, and the
position query gets what the variable held, `env.result.jd`. -/
theorem calculate_circumpolar_now (env : Env) (rq : State) (h1 : rst_return env rq = 1)
    (hm : rq.moment = .MOMENT_NOW) :
    calculate env rq =
      ⟨[ .object_rst rq.obj rq.jd rq.horizon rq.obs,
         .object_pos rq.obj env.result.jd rq.obs,
         .format_result rq.format
           (env.object_pos rq.obj env.result.jd rq.obs
             { env.result with rst := rst_times env rq, obs := rq.obs }) rq.timezone ],
       some EXIT_SUCCESS⟩ := by
  unfold rst_return at h1
  unfold calculate
  simp only []
  rw [if_pos h1, if_neg (not_not.mpr hm)]
  rfl

/-- The engine returns something else than 1: the `switch (moment)` selects the instant. -/
theorem calculate_selected (env : Env) (rq : State) (h1 : rst_return env rq ≠ 1) :
    calculate env rq =
      ⟨[ .object_rst rq.obj rq.jd rq.horizon rq.obs,
         .object_pos rq.obj (selected_instant env rq) rq.obs,
         .format_result rq.format
           (env.object_pos rq.obj (selected_instant env rq) rq.obs
             { env.result with
               rst := rst_times env rq, jd := selected_instant env rq, obs := rq.obs })
           rq.timezone ],
       some EXIT_SUCCESS⟩ := by
  unfold rst_return at h1
  unfold calculate
  simp only []
  rw [if_neg h1]
  unfold selected_instant rst_times finish
  cases rq.moment <;> rfl

/-- The two ways the engine phase ends: the circumpolar exit, or one position query and one
call of the formatter followed by `EXIT_SUCCESS`. -/
theorem calculate_cases (env : Env) (rq : State) :
    (rst_return env rq = 1 ∧ rq.moment ≠ .MOMENT_NOW ∧
      calculate env rq =
        ⟨[ .object_rst rq.obj rq.jd rq.horizon rq.obs,
           .printf .stderr "object is circumpolar\n" [] ], some EXIT_CIRCUMPOLAR⟩) ∨
    (∃ j r, calculate env rq =
        ⟨[ .object_rst rq.obj rq.jd rq.horizon rq.obs, .object_pos rq.obj j rq.obs,
           .format_result rq.format r rq.timezone ], some EXIT_SUCCESS⟩) := by
  by_cases h1 : rst_return env rq = 1
  · by_cases hm : rq.moment = .MOMENT_NOW
    · exact Or.inr ⟨_, _, calculate_circumpolar_now env rq h1 hm⟩
    · exact Or.inl ⟨h1, hm, calculate_circumpolar env rq h1 hm⟩
  · exact Or.inr ⟨_, _, calculate_selected env rq h1⟩

/-- The engine is called for the object of the request. -/
theorem calculate_object (env : Env) (rq : State) :
    (∀ o j h p, .object_rst o j h p ∈ (calculate env rq).trace → o = rq.obj) ∧
    (∀ o j p, .object_pos o j p ∈ (calculate env rq).trace → o = rq.obj) := by
  rcases calculate_cases env rq with ⟨-, -, h⟩ | ⟨j, r, h⟩
  · rw [h]
    refine ⟨?_, ?_⟩
    · intro o j h p he
      simp only [List.mem_cons, List.mem_singleton, List.not_mem_nil, or_false] at he
      rcases he with he | he
      · injection he with h1 _ _ _
      · cases he
    · intro o j p he
      simp only [List.mem_cons, List.mem_singleton, List.not_mem_nil, or_false] at he
      rcases he with he | he <;> cases he
  · rw [h]
    refine ⟨?_, ?_⟩
    · intro o j h p he
      simp only [List.mem_cons, List.mem_singleton, List.not_mem_nil, or_false] at he
      rcases he with he | he | he
      · injection he with h1 _ _ _
      · cases he
      · cases he
    · intro o j p he
      simp only [List.mem_cons, List.mem_singleton, List.not_mem_nil, or_false] at he
      rcases he with he | he | he
      · cases he
      · injection he with h1 _ _
      · cases he

/-! ## The function `main` -/

/-- The function `main` after a loop that ran to its end. -/
theorem main_done (env : Env) (b : Build) (argv : List String) (st : State)
    (tr : List Effect)
    (h : parse_args env b (env.getopt_long argv optstring (long_options b)) (initial env argv) =
      .done st tr) :
    main env b argv =
      if (validate env b st).1.error then
        ⟨tr ++ (validate env b st).2 ++ [.printf .stdout "\n" []] ++ usage env b,
         some EXIT_FAILURE⟩
      else
        ⟨tr ++ (validate env b st).2 ++ debug_output env b (validate env b st).1 ++
           (calculate env (validate env b st).1).trace,
         (calculate env (validate env b st).1).status⟩ := by
  unfold main
  rw [h]
  rfl

/-- A run passes validation exactly if the loop ran to its end without a diagnostic and the
checks recorded no error. -/
theorem validated_some (env : Env) (b : Build) (argv : List String) (rq : State)
    (h : validated env b argv = some rq) :
    ∃ st, parse_args env b (env.getopt_long argv optstring (long_options b)) (initial env argv) =
        .done st [] ∧
      (validate env b st).1 = rq ∧ rq.error = false ∧ st.error = false ∧
      (validate env b st).2 = lookup_calls b rq := by
  unfold validated at h
  split at h
  · rename_i st tr hp
    split at h
    · cases h
    · rename_i herr
      have herr2 : (validate env b st).1.error = false := by simpa using herr
      injection h with h
      obtain ⟨h0, -, -, -, hl⟩ := validate_ok env b st herr2
      obtain ⟨htr, -⟩ := (parse_done_inv env b _ _ st tr hp).2.2 h0
      subst htr
      refine ⟨st, hp, h, h ▸ herr2, h0, ?_⟩
      rw [hl, ← h]
      simp [lookup_calls, (validate_fields env b st).2.2.2.2.2.2]
  · cases h

/-- A loop that ran to its end and checks that recorded no error make a validated request. -/
theorem validated_of_done (env : Env) (b : Build) (argv : List String) (st : State)
    (tr : List Effect)
    (h : parse_args env b (env.getopt_long argv optstring (long_options b)) (initial env argv) =
      .done st tr)
    (he : (validate env b st).1.error = false) :
    validated env b argv = some (validate env b st).1 := by
  unfold validated
  rw [h]
  simp [he]

/-- The function `main` for a run that passes validation: the lookup if there is one, the
`DEBUG` block if the build has it, then the engine phase. -/
theorem main_validated (env : Env) (b : Build) (argv : List String) (rq : State)
    (h : validated env b argv = some rq) :
    main env b argv =
      ⟨lookup_calls b rq ++ debug_output env b rq ++ (calculate env rq).trace,
       (calculate env rq).status⟩ := by
  obtain ⟨st, hp, hv, he, -, hl⟩ := validated_some env b argv rq h
  rw [main_done env b argv st [] hp, hv, hl, he]
  simp

/-- The function `main` for a run whose loop ran to its end and whose checks failed. -/
theorem main_failed (env : Env) (b : Build) (argv : List String) (st : State)
    (tr : List Effect)
    (h : parse_args env b (env.getopt_long argv optstring (long_options b)) (initial env argv) =
      .done st tr)
    (he : (validate env b st).1.error = true) :
    main env b argv =
      ⟨tr ++ (validate env b st).2 ++ [.printf .stdout "\n" []] ++ usage env b,
       some EXIT_FAILURE⟩ := by
  rw [main_done env b argv st tr h, he]
  simp

/-- The failing exit of `main`: nothing of it is a call of the engine or of the formatter, and
its standard output is an empty line followed by the usage text. -/
theorem main_failed_effects (env : Env) (b : Build) (argv : List String) (st : State)
    (tr : List Effect)
    (h : parse_args env b (env.getopt_long argv optstring (long_options b)) (initial env argv) =
      .done st tr)
    (he : (validate env b st).1.error = true) :
    (∀ e ∈ (main env b argv).trace, e.is_engine = false ∧ e.is_formatter = false) ∧
    stdout_of (main env b argv).trace = .printf .stdout "\n" [] :: usage env b := by
  rw [main_failed env b argv st tr h he]
  refine ⟨?_, ?_⟩
  · intro e hmem
    simp only [List.mem_append, List.mem_singleton] at hmem
    rcases hmem with ((hm | hm) | hm) | hm
    · exact (silent_effect e (parse_silent env b _ _ st tr h e hm)).2
    · exact (silent_effect e (validate_silent env b st e hm)).2
    · subst hm
      exact ⟨rfl, rfl⟩
    · exact (usage_effects env b e hm).2
  · simp only [stdout_of_append, stdout_of_silent tr (parse_silent env b _ _ st tr h),
      stdout_of_silent _ (validate_silent env b st), stdout_of_usage, List.nil_append]
    rfl

/-- The engine returns 1 and the moment is `now`: `main` ends with `EXIT_SUCCESS` after one
call of the formatter, and the position query gets `env.result.jd`, what the variable
`result` held before any assignment. -/
theorem circumpolar_now (env : Env) (b : Build) (argv : List String) (rq : State)
    (hvalid : validated env b argv = some rq)
    (hcirc : rst_return env rq = 1) (hmoment : rq.moment = .MOMENT_NOW) :
    (main env b argv).status = some EXIT_SUCCESS ∧
    ((main env b argv).trace.filter Effect.is_formatter).length = 1 ∧
    .object_pos rq.obj env.result.jd rq.obs ∈ (main env b argv).trace ∧
    (∀ o j p, .object_pos o j p ∈ (main env b argv).trace → j = env.result.jd) := by
  have hmain := main_validated env b argv rq hvalid
  rw [calculate_circumpolar_now env rq hcirc hmoment] at hmain
  have hl : (lookup_calls b rq).filter Effect.is_formatter = [] := by
    rw [List.filter_eq_nil_iff]
    intro e he
    simp [(silent_effect e (lookup_calls_silent b rq e he)).2.2]
  have hd : (debug_output env b rq).filter Effect.is_formatter = [] := by
    rw [List.filter_eq_nil_iff]
    intro e he
    simp [(debug_output_effects env b rq e he).2]
  refine ⟨by rw [hmain], ?_, ?_, ?_⟩
  · rw [hmain]
    simp only [List.filter_append, hl, hd]
    simp [List.filter, Effect.is_formatter]
  · rw [hmain]
    simp
  · intro o j p he
    rw [hmain] at he
    simp only [List.mem_append, List.mem_cons, List.mem_singleton, List.not_mem_nil,
      or_false] at he
    rcases he with (he | he) | he | he | he
    · have hs := lookup_calls_silent b rq _ he
      simp [Effect.is_silent] at hs
    · simpa [Effect.is_engine] using (debug_output_effects env b rq _ he).1
    · cases he
    · injection he with _ h2 _
    · cases he

/-! ## The observer coordinates -/

/-- A double that is not NaN and for which `fabs(x) > n` is false lies in `[-n, n]`. -/
theorem within_of_not_gt (x : Double) (n : Nat) (hx : x ≠ .nan)
    (h : (x.fabs).gt (.fin false n 0) = false) :
    Double.within (.fin true n 0) (.fin false n 0) x = true := by
  cases x with
  | nan => exact absurd rfl hx
  | inf neg => simp [Double.fabs, Double.gt] at h
  | fin neg m e =>
    simp only [Double.fabs, Double.gt, decide_eq_false_iff_not, not_lt] at h
    simp only [Double.within, Double.gt, Bool.and_eq_true, Bool.not_eq_true',
      decide_eq_false_iff_not, not_lt]
    rw [min_comm 0 e]
    simp only [Double.scaled, Bool.false_eq_true, if_false, if_true] at h ⊢
    generalize n <<< (0 - min e 0).toNat = A at h ⊢
    generalize m <<< (e - min e 0).toNat = B at h ⊢
    cases neg <;> simp only [Bool.false_eq_true, if_false, if_true] <;> omega

/-- The first half of C5. The loop ran to its end. If, after the lookup, `fabs(obs.lat) > 90`
or `fabs(obs.lng) > 180` holds, `main` ends with `EXIT_FAILURE` without a call of the engine,
whatever the other options are. That is so when there is no lookup and no `--lat` option, or
no `--lon` option: the coordinate is then still `DBL_MAX`. -/
theorem bad_coordinates_fail (env : Env) (b : Build) (argv : List String) (st : State)
    (tr : List Effect)
    (hloop : parse_args env b (env.getopt_long argv optstring (long_options b))
      (initial env argv) = .done st tr) :
    (((validate env b st).1.obs.lat.fabs).gt (Double.ofInt 90) = true ∨
      ((validate env b st).1.obs.lng.fabs).gt (Double.ofInt 180) = true →
      (main env b argv).status = some EXIT_FAILURE ∧
      ∀ e ∈ (main env b argv).trace, e.is_engine = false) ∧
    (lookup_calls b st = [] →
      (∀ e ∈ env.getopt_long argv optstring (long_options b), e.1 ≠ 'a') ∨
      (∀ e ∈ env.getopt_long argv optstring (long_options b), e.1 ≠ 'o') →
      (main env b argv).status = some EXIT_FAILURE ∧
      ∀ e ∈ (main env b argv).trace, e.is_engine = false) := by
  have key : ((validate env b st).1.obs.lat.fabs).gt (Double.ofInt 90) = true ∨
      ((validate env b st).1.obs.lng.fabs).gt (Double.ofInt 180) = true →
      (main env b argv).status = some EXIT_FAILURE ∧
      ∀ e ∈ (main env b argv).trace, e.is_engine = false := by
    intro h
    have herr := validate_bad_coordinates env b st h
    refine ⟨by rw [main_failed env b argv st tr hloop herr], fun e he => ?_⟩
    exact ((main_failed_effects env b argv st tr hloop herr).1 e he).1
  refine ⟨key, fun hl hno => key ?_⟩
  obtain ⟨p1, p2⟩ := parse_obs env b _ _ st tr hloop
  rw [validate_obs env b st hl]
  rcases hno with hno | hno
  · left
    rw [p1 hno]
    exact (by decide : (DBL_MAX.fabs).gt (Double.ofInt 90) = true)
  · right
    rw [p2 hno]
    exact (by decide : (DBL_MAX.fabs).gt (Double.ofInt 180) = true)

/-- What the checks do guarantee. For a request that passes validation, the engine is called
with the coordinates of the request, for which neither `fabs(obs.lat) > 90` nor
`fabs(obs.lng) > 180` holds: the latitude is in `[-90, 90]` or NaN, the longitude in
`[-180, 180]` or NaN. -/
theorem validated_coordinates (env : Env) (b : Build) (argv : List String) (rq : State)
    (hvalid : validated env b argv = some rq) :
    (rq.obs.lat = .nan ∨
      Double.within (Double.ofInt (-90)) (Double.ofInt 90) rq.obs.lat = true) ∧
    (rq.obs.lng = .nan ∨
      Double.within (Double.ofInt (-180)) (Double.ofInt 180) rq.obs.lng = true) ∧
    .object_rst rq.obj rq.jd rq.horizon rq.obs ∈ (main env b argv).trace := by
  obtain ⟨st, -, hv, herr, -, -⟩ := validated_some env b argv rq hvalid
  obtain ⟨-, -, h1, h2, -⟩ := validate_ok env b st (hv ▸ herr)
  rw [hv] at h1 h2
  refine ⟨?_, ?_, ?_⟩
  · by_cases hn : rq.obs.lat = .nan
    · exact Or.inl hn
    · exact Or.inr (within_of_not_gt _ 90 hn h1)
  · by_cases hn : rq.obs.lng = .nan
    · exact Or.inl hn
    · exact Or.inr (within_of_not_gt _ 180 hn h2)
  · rw [main_validated env b argv rq hvalid]
    rcases calculate_cases env rq with ⟨-, -, h⟩ | ⟨j, r, h⟩ <;> rw [h] <;> simp

/-! ## The claims -/

/-- C1. A request passes validation, the engine returns 1 (circumpolar) and the moment is
rise, set or transit: `main` ends with the status `EXIT_CIRCUMPOLAR`, which is 2 and differs
from `EXIT_SUCCESS` and `EXIT_FAILURE`; the last thing it does is print
`object is circumpolar` on the error stream; standard output gets nothing (in a build with
`DEBUG`: nothing but the lines of the `DEBUG` block); and neither the position query nor the
formatter is called. -/
theorem circumpolar_exit (env : Env) (b : Build) (argv : List String) (rq : State)
    (hvalid : validated env b argv = some rq)
    (hcirc : rst_return env rq = 1)
    (hmoment : rq.moment = .MOMENT_RISE ∨ rq.moment = .MOMENT_SET ∨
      rq.moment = .MOMENT_TRANSIT) :
    (main env b argv).status = some EXIT_CIRCUMPOLAR ∧
    EXIT_CIRCUMPOLAR = 2 ∧ EXIT_CIRCUMPOLAR ≠ EXIT_SUCCESS ∧ EXIT_CIRCUMPOLAR ≠ EXIT_FAILURE ∧
    (main env b argv).trace.getLast? = some (.printf .stderr "object is circumpolar\n" []) ∧
    stdout_of (main env b argv).trace = debug_output env b rq ∧
    (b.DEBUG = false → stdout_of (main env b argv).trace = []) ∧
    (∀ e ∈ (main env b argv).trace, (∀ o j p, e ≠ .object_pos o j p) ∧
      e.is_formatter = false) := by
  have hm : rq.moment ≠ .MOMENT_NOW := by
    rcases hmoment with h | h | h <;> rw [h] <;> decide
  have hmain := main_validated env b argv rq hvalid
  rw [calculate_circumpolar env rq hcirc hm] at hmain
  have hout : stdout_of (main env b argv).trace = debug_output env b rq := by
    rw [hmain]
    simp only [stdout_of_append, stdout_of_silent _ (lookup_calls_silent b rq),
      debug_output_stdout]
    simp [stdout_of, Effect.on_stdout]
  refine ⟨by rw [hmain], rfl, by decide, by decide, ?_, hout, ?_, ?_⟩
  · rw [hmain]
    simp
  · intro hd
    rw [hout]
    simp [debug_output, hd]
  · intro e he
    rw [hmain] at he
    simp only [List.mem_append, List.mem_cons, List.mem_singleton, List.not_mem_nil,
      or_false] at he
    rcases he with (he | he) | he | he
    · have hs := lookup_calls_silent b rq e he
      refine ⟨?_, (silent_effect e hs).2.2⟩
      intro o j p heq
      subst heq
      simp [Effect.is_silent] at hs
    · refine ⟨?_, (debug_output_effects env b rq e he).2⟩
      intro o j p heq
      subst heq
      simpa [Effect.is_engine] using (debug_output_effects env b rq _ he).1
    · subst he
      exact ⟨fun o j p h => (by cases h), rfl⟩
    · subst he
      exact ⟨fun o j p h => (by cases h), rfl⟩

/-- Witness of C1 in the stub: the sun at latitude 80 with `-m rise`. -/
theorem circumpolar_exit_witness :
    validated stub plain ["sun", "-a", "80", "-o", "0", "-m", "rise"] =
      some (sun_at lat_80 .MOMENT_RISE) ∧
    (main stub plain ["sun", "-a", "80", "-o", "0", "-m", "rise"]).status = some 2 ∧
    stdout_of (main stub plain ["sun", "-a", "80", "-o", "0", "-m", "rise"]).trace = [] :=
  ⟨by decide,
   (circumpolar_exit stub plain ["sun", "-a", "80", "-o", "0", "-m", "rise"]
     (sun_at lat_80 .MOMENT_RISE) (by decide) (by decide) (Or.inl rfl)).1,
   (circumpolar_exit stub plain ["sun", "-a", "80", "-o", "0", "-m", "rise"]
     (sun_at lat_80 .MOMENT_RISE) (by decide) (by decide) (Or.inl rfl)).2.2.2.2.2.2.1 rfl⟩

/-- C2. A request passes validation and the engine does not return 1 (not circumpolar):
`main` ends with `EXIT_SUCCESS`, and the position query is called with the instant the moment
selects: the reference instant `jd` for `now`, the rise, set or transit instant of the engine
for `rise`, `set`, `transit`. -/
theorem moment_selects_instant (env : Env) (b : Build) (argv : List String) (rq : State)
    (hvalid : validated env b argv = some rq)
    (hnormal : rst_return env rq ≠ 1) :
    (main env b argv).status = some EXIT_SUCCESS ∧
    .object_pos rq.obj (selected_instant env rq) rq.obs ∈ (main env b argv).trace ∧
    (∀ o j p, .object_pos o j p ∈ (main env b argv).trace → j = selected_instant env rq) ∧
    (rq.moment = .MOMENT_NOW → selected_instant env rq = rq.jd) ∧
    (rq.moment = .MOMENT_RISE → selected_instant env rq = (rst_times env rq).rise) ∧
    (rq.moment = .MOMENT_SET → selected_instant env rq = (rst_times env rq).set) ∧
    (rq.moment = .MOMENT_TRANSIT → selected_instant env rq = (rst_times env rq).transit) := by
  have hmain := main_validated env b argv rq hvalid
  rw [calculate_selected env rq hnormal] at hmain
  refine ⟨by rw [hmain], ?_, ?_, ?_, ?_, ?_, ?_⟩
  · rw [hmain]
    simp
  · intro o j p he
    rw [hmain] at he
    simp only [List.mem_append, List.mem_cons, List.mem_singleton, List.not_mem_nil,
      or_false] at he
    rcases he with (he | he) | he | he | he
    · have hs := lookup_calls_silent b rq _ he
      simp [Effect.is_silent] at hs
    · simpa [Effect.is_engine] using (debug_output_effects env b rq _ he).1
    · cases he
    · injection he with _ h2 _
    · cases he
  all_goals
    intro h
    unfold selected_instant
    rw [h]

/-- Witness of C2 in the stub: the sun at latitude 40 with `-m set`; the position query gets
the set instant of the engine, a quarter of a day after the reference instant. -/
theorem moment_selects_instant_witness :
    validated stub plain ["sun", "-a", "40", "-o", "0", "-m", "set"] =
      some (sun_at lat_40 .MOMENT_SET) ∧
    rst_return stub (sun_at lat_40 .MOMENT_SET) = 0 ∧
    (main stub plain ["sun", "-a", "40", "-o", "0", "-m", "set"]).status = some 0 ∧
    Effect.object_pos .OBJECT_SUN (.fin false 9840469 (-2)) ⟨.fin false 0 0, lat_40⟩ ∈
      (main stub plain ["sun", "-a", "40", "-o", "0", "-m", "set"]).trace :=
  ⟨by decide, by decide,
   (moment_selects_instant stub plain ["sun", "-a", "40", "-o", "0", "-m", "set"]
     (sun_at lat_40 .MOMENT_SET) (by decide) (by decide)).1,
   (moment_selects_instant stub plain ["sun", "-a", "40", "-o", "0", "-m", "set"]
     (sun_at lat_40 .MOMENT_SET) (by decide) (by decide)).2.1⟩

/-- C3 (the code departs from it). In the stub, for the sun at latitude 80 and the moment
`now`, the engine returns 1; `main` ends with `EXIT_SUCCESS` after one call of the formatter,
but the instant it hands to the position query is the leftover `stub.result.jd` (-1), not the
reference instant (the current time, Julian day 2460117). -/
theorem circumpolar_now_stale_instant :
    validated stub plain ["sun", "-a", "80", "-o", "0"] = some (sun_at lat_80 .MOMENT_NOW) ∧
    rst_return stub (sun_at lat_80 .MOMENT_NOW) = 1 ∧
    (main stub plain ["sun", "-a", "80", "-o", "0"]).status = some EXIT_SUCCESS ∧
    ((main stub plain ["sun", "-a", "80", "-o", "0"]).trace.filter
      Effect.is_formatter).length = 1 ∧
    (∀ o j p, .object_pos o j p ∈ (main stub plain ["sun", "-a", "80", "-o", "0"]).trace →
      j = stub.result.jd) ∧
    Effect.object_pos .OBJECT_SUN (.fin true 1 0) ⟨.fin false 0 0, lat_80⟩ ∈
      (main stub plain ["sun", "-a", "80", "-o", "0"]).trace ∧
    (sun_at lat_80 .MOMENT_NOW).jd = stub.ln_get_julian_from_sys ∧
    stub.result.jd ≠ stub.ln_get_julian_from_sys :=
  ⟨by decide, by decide,
   (circumpolar_now stub plain _ (sun_at lat_80 .MOMENT_NOW) (by decide) (by decide) rfl).1,
   (circumpolar_now stub plain _ (sun_at lat_80 .MOMENT_NOW) (by decide) (by decide) rfl).2.1,
   (circumpolar_now stub plain _ (sun_at lat_80 .MOMENT_NOW) (by decide) (by decide) rfl).2.2.2,
   (circumpolar_now stub plain _ (sun_at lat_80 .MOMENT_NOW) (by decide) (by decide) rfl).2.2.1,
   by decide, by decide⟩

/-- C4 as stated fails. An argument vector can contain `-h` or `--help` without `main`
printing the usage text and ending with success: in `-f -h` the text `-h` is the argument of
`-f`, and in `x --help` the scan of the options stops at `x`. With nothing else given both
runs end with `EXIT_FAILURE`; with an object and coordinates the first one goes through the
engine and calls the formatter with the format `-h`, and prints no usage text. -/
theorem help_not_an_option_counterexample :
    "-h" ∈ ["calcelestial", "-f", "-h"] ∧
    (main stub plain ["calcelestial", "-f", "-h"]).status = some EXIT_FAILURE ∧
    "--help" ∈ ["calcelestial", "x", "--help"] ∧
    (main stub plain ["calcelestial", "x", "--help"]).status = some EXIT_FAILURE ∧
    EXIT_FAILURE ≠ EXIT_SUCCESS ∧
    "-h" ∈ ["sun", "-a", "40", "-o", "0", "-f", "-h"] ∧
    (main stub plain ["sun", "-a", "40", "-o", "0", "-f", "-h"]).trace.any Effect.is_engine
      = true ∧
    (∀ e ∈ usage stub plain,
      e ∉ (main stub plain ["sun", "-a", "40", "-o", "0", "-f", "-h"]).trace) := by
  refine ⟨by decide, by decide, by decide, by decide, by decide, by decide, by decide,
    by decide⟩

/-- C4, amended. When `getopt_long` returns `h` (for `-h`, `--help`) or `v` (for `-v`,
`--version`) and the loop reaches that return, because the options before it neither are
help or version nor end the run, `main` prints the diagnostics of the options before it, then
the usage text (for `h`) or the version text (for `v`) on standard output, and ends with
`EXIT_SUCCESS`, whatever the options before and after it are; it checks nothing, and calls
neither the engine nor the formatter. -/
theorem help_version_short_circuit (env : Env) (b : Build) (argv : List String)
    (pre post : List (Char × Option String)) (c : Char) (optarg : Option String)
    (st : State) (tr : List Effect)
    (hev : env.getopt_long argv optstring (long_options b) = pre ++ (c, optarg) :: post)
    (hc : c = 'h' ∨ c = 'v')
    (hpre : parse_args env b pre (initial env argv) = .done st tr) :
    main env b argv =
      ⟨pre.filterMap (fun e => diagnostic env b e.1 e.2) ++
         (if c = 'h' then usage env b else version env), some EXIT_SUCCESS⟩ ∧
    EXIT_SUCCESS = 0 ∧
    stdout_of (main env b argv).trace = (if c = 'h' then usage env b else version env) ∧
    (∀ e ∈ (main env b argv).trace, e.is_engine = false ∧ e.is_formatter = false) := by
  have htr := (parse_trace env b pre _ st tr hpre).1
  have hsil := parse_silent env b pre _ st tr hpre
  have hloop : parse_args env b (env.getopt_long argv optstring (long_options b))
      (initial env argv) =
      .returned (tr ++ (if c = 'h' then usage env b else version env)) EXIT_SUCCESS := by
    rw [hev, parse_append env b pre _ _ st tr hpre, parse_args_cons]
    rcases hc with rfl | rfl
    · rw [step_h]
      simp
    · rw [step_v]
      simp
  have hmain : main env b argv =
      ⟨tr ++ (if c = 'h' then usage env b else version env), some EXIT_SUCCESS⟩ := by
    unfold main
    rw [hloop]
  have hkind : ∀ e ∈ (if c = 'h' then usage env b else version env),
      e.on_stdout = true ∧ e.is_engine = false ∧ e.is_formatter = false := by
    intro e he
    split at he
    · exact usage_effects env b e he
    · exact version_effects env e he
  refine ⟨by rw [hmain, htr], rfl, ?_, ?_⟩
  · rw [hmain]
    simp only [stdout_of_append, stdout_of_silent tr hsil, List.nil_append]
    unfold stdout_of
    rw [List.filter_eq_self]
    intro e he
    exact (hkind e he).1
  · intro e he
    rw [hmain] at he
    rcases List.mem_append.mp he with he | he
    · exact (silent_effect e (hsil e he)).2
    · exact (hkind e he).2

/-- Witness of C4, amended, in the stub: `--help` between a malformed `-H` and a malformed
`-m`, with no object and no coordinates. -/
theorem help_version_short_circuit_witness :
    stub.getopt_long ["calcelestial", "-H", "bogus", "--help", "-m", "never"] optstring
        (long_options plain) =
      [('H', some "bogus")] ++ ('h', none) :: [('m', some "never")] ∧
    main stub plain ["calcelestial", "-H", "bogus", "--help", "-m", "never"] =
      ⟨.printf .stderr "invalid twilight: %s\n" [.str (some "bogus")] :: usage stub plain,
       some 0⟩ :=
  ⟨by decide,
   (help_version_short_circuit stub plain
     ["calcelestial", "-H", "bogus", "--help", "-m", "never"]
     [('H', some "bogus")] [('m', some "never")] 'h' none
     { initial stub ["calcelestial", "-H", "bogus", "--help", "-m", "never"] with
       horizon := .fin false 0 0, error := true }
     [.printf .stderr "invalid twilight: %s\n" [.str (some "bogus")]]
     (by decide) (Or.inl rfl) (by decide)).1⟩

/-- C5 (the code departs from it). In the stub, `sun -a nan -o 0` passes validation: `strtod`
reads `nan` as NaN, and `fabs(NaN) > 90` is false. The engine and the position query are
called with the latitude NaN, which is not in `[-90, 90]`, and `main` ends with
`EXIT_SUCCESS`. -/
theorem nan_latitude_reaches_engine :
    stub.strtod "nan" = (.nan, 3) ∧
    validated stub plain ["sun", "-a", "nan", "-o", "0"] = some (sun_at .nan .MOMENT_NOW) ∧
    (main stub plain ["sun", "-a", "nan", "-o", "0"]).status = some EXIT_SUCCESS ∧
    Effect.object_rst .OBJECT_SUN (.fin false 2460117 0) stub.LN_SOLAR_STANDART_HORIZON
      ⟨.fin false 0 0, .nan⟩ ∈ (main stub plain ["sun", "-a", "nan", "-o", "0"]).trace ∧
    Effect.object_pos .OBJECT_SUN (.fin false 2460117 0) ⟨.fin false 0 0, .nan⟩ ∈
      (main stub plain ["sun", "-a", "nan", "-o", "0"]).trace ∧
    Double.within (Double.ofInt (-90)) (Double.ofInt 90) .nan = false := by
  refine ⟨by decide, by decide, by decide, by decide, by decide, by decide⟩

/-- C6. The pass of the loop for a `--horizon s`: for `civil`, `nautic`, `astronomical` the
horizon becomes the constant of libnova of that name and nothing else changes, no error
included; for any other `s`, either `strtod` reads a number at its start, which becomes the
horizon with no error, or the error flag is set and `invalid twilight: s` goes to the error
stream, and one of the two always happens. Without such an option the horizon stays the
standard solar horizon, up to the call of the engine. -/
theorem horizon_resolution (env : Env) (b : Build) (st : State) (s : String) :
    (s = "civil" →
      step env b st 'H' (some s) =
        .next { st with horizon := env.LN_SOLAR_CIVIL_HORIZON } []) ∧
    (s = "nautic" →
      step env b st 'H' (some s) =
        .next { st with horizon := env.LN_SOLAR_NAUTIC_HORIZON } []) ∧
    (s = "astronomical" →
      step env b st 'H' (some s) =
        .next { st with horizon := env.LN_SOLAR_ASTRONOMICAL_HORIZON } []) ∧
    (s ≠ "civil" → s ≠ "nautic" → s ≠ "astronomical" →
      ((env.strtod s).2 ≠ 0 ∧
        step env b st 'H' (some s) = .next { st with horizon := (env.strtod s).1 } []) ∨
      ((env.strtod s).2 = 0 ∧
        step env b st 'H' (some s) =
          .next { st with horizon := (env.strtod s).1, error := true }
            [.printf .stderr "invalid twilight: %s\n" [.str (some s)]])) ∧
    (∀ (argv : List String) (st2 : State) (tr : List Effect),
      (∀ e ∈ env.getopt_long argv optstring (long_options b), e.1 ≠ 'H') →
      parse_args env b (env.getopt_long argv optstring (long_options b)) (initial env argv) =
        .done st2 tr →
      st2.horizon = env.LN_SOLAR_STANDART_HORIZON ∧
      (validate env b st2).1.horizon = env.LN_SOLAR_STANDART_HORIZON) := by
  refine ⟨?_, ?_, ?_, ?_, ?_⟩
  · intro h
    subst h
    rw [step_H]
    rfl
  · intro h
    subst h
    rw [step_H]
    rfl
  · intro h
    subst h
    rw [step_H]
    rfl
  · intro h1 h2 h3
    rw [step_H]
    unfold case_H
    simp only [if_neg h1, if_neg h2, if_neg h3]
    by_cases h0 : (env.strtod s).2 = 0
    · right
      exact ⟨h0, by rw [if_pos h0]⟩
    · left
      exact ⟨h0, by rw [if_neg h0]⟩
  · intro argv st2 tr hno hp
    have h : st2.horizon = env.LN_SOLAR_STANDART_HORIZON :=
      parse_horizon env b _ _ st2 tr hno hp
    exact ⟨h, by rw [(validate_fields env b st2).1, h]⟩

/-- Witness of C6 in the stub: `-H civil` gives -6, `-H -12.5xyz` gives the number at the start
of the text, `-H twilight` gives the diagnostic and the error, and a run without `-H` reaches
the engine with the standard horizon. -/
theorem horizon_resolution_witness :
    step stub plain (sun_at lat_40 .MOMENT_NOW) 'H' (some "civil") =
      .next { sun_at lat_40 .MOMENT_NOW with horizon := Double.ofInt (-6) } [] ∧
    step stub plain (sun_at lat_40 .MOMENT_NOW) 'H' (some "-12.5xyz") =
      .next { sun_at lat_40 .MOMENT_NOW with horizon := .fin true 7036874417766400 (-49) } [] ∧
    step stub plain (sun_at lat_40 .MOMENT_NOW) 'H' (some "twilight") =
      .next { sun_at lat_40 .MOMENT_NOW with horizon := .fin false 0 0, error := true }
        [.printf .stderr "invalid twilight: %s\n" [.str (some "twilight")]] ∧
    (validate stub plain (sun_at lat_40 .MOMENT_NOW)).1.horizon =
      stub.LN_SOLAR_STANDART_HORIZON :=
  ⟨(horizon_resolution stub plain (sun_at lat_40 .MOMENT_NOW) "civil").1 rfl,
   ((horizon_resolution stub plain (sun_at lat_40 .MOMENT_NOW) "-12.5xyz").2.2.2.1
     (by decide) (by decide) (by decide)).elim (fun h => h.2)
     (fun h => absurd h.1 (by decide)),
   ((horizon_resolution stub plain (sun_at lat_40 .MOMENT_NOW) "twilight").2.2.2.1
     (by decide) (by decide) (by decide)).elim (fun h => absurd rfl h.1) (fun h => h.2),
   ((horizon_resolution stub plain (sun_at lat_40 .MOMENT_NOW) "civil").2.2.2.2
     ["sun", "-a", "40", "-o", "0"] (sun_at lat_40 .MOMENT_NOW) [] (by decide)
     (by decide)).2⟩

/-- C7. The loop ran to its end (no help, no version) and at least one option is malformed.
Each pass of the loop prints the diagnostic of its option, if it has one, and then sets the
error flag, and never clears it; so the trace of the loop is the sequence of the diagnostics of
all malformed options, those after the first one included, and the flag is set at the end.
Then `main` prints the usage text and ends with `EXIT_FAILURE`, without a call of the engine
or of the formatter. -/
theorem option_errors_accumulate (env : Env) (b : Build) (argv : List String) (st : State)
    (tr : List Effect)
    (hloop : parse_args env b (env.getopt_long argv optstring (long_options b))
      (initial env argv) = .done st tr)
    (hbad : ∃ e ∈ env.getopt_long argv optstring (long_options b),
      (diagnostic env b e.1 e.2).isSome = true) :
    (∀ st0 c optarg st1 eff, step env b st0 c optarg = .next st1 eff →
      eff = (diagnostic env b c optarg).toList ∧
      st1.error = (st0.error || (diagnostic env b c optarg).isSome)) ∧
    tr = (env.getopt_long argv optstring (long_options b)).filterMap
      (fun e => diagnostic env b e.1 e.2) ∧
    (∀ e ∈ env.getopt_long argv optstring (long_options b), ∀ d,
      diagnostic env b e.1 e.2 = some d → d ∈ (main env b argv).trace) ∧
    st.error = true ∧
    (main env b argv).status = some EXIT_FAILURE ∧
    (main env b argv).trace =
      tr ++ (validate env b st).2 ++ [.printf .stdout "\n" []] ++ usage env b ∧
    (∀ e ∈ (main env b argv).trace, e.is_engine = false ∧ e.is_formatter = false) := by
  obtain ⟨htr, herr⟩ := parse_trace env b _ _ st tr hloop
  have hst : st.error = true := by
    rw [herr]
    obtain ⟨e, he, hd⟩ := hbad
    simp only [Bool.or_eq_true, List.any_eq_true]
    exact Or.inr ⟨e, he, hd⟩
  have hv := validate_error_mono env b st hst
  have hmain := main_failed env b argv st tr hloop hv
  refine ⟨fun st0 c optarg => step_diagnostic env b st0 c optarg, htr, ?_, hst,
    by rw [hmain], by rw [hmain], (main_failed_effects env b argv st tr hloop hv).1⟩
  intro e he d hd
  rw [hmain, htr]
  simp only [List.mem_append, List.mem_filterMap]
  exact Or.inl (Or.inl (Or.inl ⟨e, he, hd⟩))

/-- Witness of C7 in the stub: a malformed horizon, a valid latitude, a malformed moment, a
malformed time, an option without a `case`, a valid longitude. -/
theorem option_errors_accumulate_witness :
    stub.getopt_long
        ["sun", "-H", "dusk", "-a", "40", "-m", "noon", "-t", "today", "-x", "-o", "0"]
        optstring (long_options plain) =
      [('H', some "dusk"), ('a', some "40"), ('m', some "noon"), ('t', some "today"),
       ('?', none), ('o', some "0")] ∧
    (main stub plain
        ["sun", "-H", "dusk", "-a", "40", "-m", "noon", "-t", "today", "-x", "-o", "0"]).trace =
      [ .printf .stderr "invalid twilight: %s\n" [.str (some "dusk")],
        .printf .stderr "invalid moment: %s\n" [.str (some "noon")],
        .printf .stderr "invalid date: %s\n" [.str (some "today")],
        .printf .stderr "unrecognized option %s\n" [.str none] ] ++
      (validate stub plain { sun_at lat_40 .MOMENT_NOW with
        horizon := .fin false 0 0, error := true }).2 ++
      [.printf .stdout "\n" []] ++ usage stub plain ∧
    (main stub plain
        ["sun", "-H", "dusk", "-a", "40", "-m", "noon", "-t", "today", "-x", "-o", "0"]).status =
      some 1 :=
  ⟨by decide,
   (option_errors_accumulate stub plain
     ["sun", "-H", "dusk", "-a", "40", "-m", "noon", "-t", "today", "-x", "-o", "0"]
     { sun_at lat_40 .MOMENT_NOW with horizon := .fin false 0 0, error := true }
     [ .printf .stderr "invalid twilight: %s\n" [.str (some "dusk")],
       .printf .stderr "invalid moment: %s\n" [.str (some "noon")],
       .printf .stderr "invalid date: %s\n" [.str (some "today")],
       .printf .stderr "unrecognized option %s\n" [.str none] ]
     (by decide) ⟨('H', some "dusk"), by decide, by decide⟩).2.2.2.2.2.1,
   (option_errors_accumulate stub plain
     ["sun", "-H", "dusk", "-a", "40", "-m", "noon", "-t", "today", "-x", "-o", "0"]
     { sun_at lat_40 .MOMENT_NOW with horizon := .fin false 0 0, error := true }
     [ .printf .stderr "invalid twilight: %s\n" [.str (some "dusk")],
       .printf .stderr "invalid moment: %s\n" [.str (some "noon")],
       .printf .stderr "invalid date: %s\n" [.str (some "today")],
       .printf .stderr "unrecognized option %s\n" [.str none] ]
     (by decide) ⟨('H', some "dusk"), by decide, by decide⟩).2.2.2.2.1⟩

/-- C8 as stated fails. Invoked as `calcelestial` with no option, `main` fails validation and
ends with `EXIT_FAILURE`, and its standard output is not empty: it holds an empty line and
the usage text, which `usage` prints with `printf`. -/
theorem usage_on_stdout_counterexample :
    (main stub plain ["calcelestial"]).status = some EXIT_FAILURE ∧
    stdout_of (main stub plain ["calcelestial"]).trace =
      .printf .stdout "\n" [] :: usage stub plain ∧
    stdout_of (main stub plain ["calcelestial"]).trace ≠ [] := by
  refine ⟨by decide, by decide, by decide⟩

/-- C8, amended. When `main` ends with `EXIT_FAILURE`, all it did before the end was print
diagnostics on the error stream (and call the lookup), and then print an empty line and the
usage text on standard output, which holds nothing else. When `main` ends with
`EXIT_CIRCUMPOLAR`, standard output holds nothing (in a build with `DEBUG`: nothing but the
lines of the `DEBUG` block). -/
theorem failure_output (env : Env) (b : Build) (argv : List String) :
    ((main env b argv).status = some EXIT_FAILURE →
      (∃ diags, (main env b argv).trace = diags ++ .printf .stdout "\n" [] :: usage env b ∧
        ∀ e ∈ diags, e.is_silent = true) ∧
      stdout_of (main env b argv).trace = .printf .stdout "\n" [] :: usage env b) ∧
    ((main env b argv).status = some EXIT_CIRCUMPOLAR →
      ∃ rq, validated env b argv = some rq ∧
        stdout_of (main env b argv).trace = debug_output env b rq ∧
        (b.DEBUG = false → stdout_of (main env b argv).trace = [])) := by
  have n1 : (some EXIT_SUCCESS : Option Int) ≠ some EXIT_FAILURE := by decide
  have n2 : (some EXIT_SUCCESS : Option Int) ≠ some EXIT_CIRCUMPOLAR := by decide
  have n3 : (some EXIT_FAILURE : Option Int) ≠ some EXIT_CIRCUMPOLAR := by decide
  have n4 : (some EXIT_CIRCUMPOLAR : Option Int) ≠ some EXIT_FAILURE := by decide
  cases hp : parse_args env b (env.getopt_long argv optstring (long_options b))
      (initial env argv) with
  | undefined eff =>
    have hmain : main env b argv = ⟨eff, none⟩ := by
      unfold main
      rw [hp]
    rw [hmain]
    exact ⟨fun h => (by cases h), fun h => (by cases h)⟩
  | returned eff code =>
    have hmain : main env b argv = ⟨eff, some code⟩ := by
      unfold main
      rw [hp]
    have hcode := parse_returned env b _ _ eff code hp
    subst hcode
    rw [hmain]
    exact ⟨fun h => absurd h n1, fun h => absurd h n2⟩
  | done st tr =>
    cases herr : (validate env b st).1.error with
    | true =>
      have hmain := main_failed env b argv st tr hp herr
      refine ⟨fun _ => ⟨⟨tr ++ (validate env b st).2, ?_, ?_⟩,
        (main_failed_effects env b argv st tr hp herr).2⟩, fun h => ?_⟩
      · rw [hmain]
        simp
      · intro e he
        rcases List.mem_append.mp he with he | he
        · exact parse_silent env b _ _ st tr hp e he
        · exact validate_silent env b st e he
      · rw [hmain] at h
        exact absurd h n3
    | false =>
      have hval := validated_of_done env b argv st tr hp herr
      have hmain := main_validated env b argv _ hval
      rcases calculate_cases env (validate env b st).1 with ⟨h1, hm, hc⟩ | ⟨j, r, hc⟩
      · have hm2 : (validate env b st).1.moment = .MOMENT_RISE ∨
            (validate env b st).1.moment = .MOMENT_SET ∨
            (validate env b st).1.moment = .MOMENT_TRANSIT := by
          revert hm
          cases (validate env b st).1.moment <;> simp
        rw [hc] at hmain
        have hout : stdout_of (main env b argv).trace =
            debug_output env b (validate env b st).1 := by
          rw [hmain]
          simp only [stdout_of_append, stdout_of_silent _ (lookup_calls_silent b _),
            debug_output_stdout]
          simp [stdout_of, Effect.on_stdout]
        refine ⟨fun h => ?_, fun _ => ⟨_, hval, hout, fun hd => ?_⟩⟩
        · rw [hmain] at h
          exact absurd h n4
        · rw [hout]
          simp [debug_output, hd]
      · rw [hc] at hmain
        rw [hmain]
        exact ⟨fun h => absurd h n1, fun h => absurd h n2⟩

/-- Witness of C8, amended, in the stub: the failing run `calcelestial` and the circumpolar
run `sun -a 80 -o 0 -m rise`. -/
theorem failure_output_witness :
    stdout_of (main stub plain ["calcelestial"]).trace =
      .printf .stdout "\n" [] :: usage stub plain ∧
    (∃ rq, validated stub plain ["sun", "-a", "80", "-o", "0", "-m", "rise"] = some rq ∧
      stdout_of (main stub plain ["sun", "-a", "80", "-o", "0", "-m", "rise"]).trace =
        debug_output stub plain rq ∧
      (plain.DEBUG = false →
        stdout_of (main stub plain ["sun", "-a", "80", "-o", "0", "-m", "rise"]).trace = [])) :=
  ⟨((failure_output stub plain ["calcelestial"]).1 (by decide)).2,
   (failure_output stub plain ["sun", "-a", "80", "-o", "0", "-m", "rise"]).2 (by decide)⟩

/-- C9 as stated fails. Invoked as `calcelestial --help`, with a generic invocation name and
no `--object` option, neither the name nor an option yields a known object; yet `main`
records no `invalid object` error and does not end with `EXIT_FAILURE`: the `case 'h'` of the
loop prints the usage text and returns `EXIT_SUCCESS` before the object is checked. -/
theorem help_skips_object_check_counterexample :
    stub.object_from_name (stub.basename (some "calcelestial")) false = .OBJECT_INVALID ∧
    object_values (stub.getopt_long ["calcelestial", "--help"] optstring
      (long_options plain)) = [] ∧
    selected_object stub ["calcelestial", "--help"]
      (stub.getopt_long ["calcelestial", "--help"] optstring (long_options plain)) =
      .OBJECT_INVALID ∧
    (main stub plain ["calcelestial", "--help"]).status = some EXIT_SUCCESS ∧
    (main stub plain ["calcelestial", "--help"]).status ≠ some EXIT_FAILURE ∧
    Effect.printf .stderr "invalid object\n" [] ∉
      (main stub plain ["calcelestial", "--help"]).trace := by
  refine ⟨by decide, by decide, by decide, by decide, by decide, by decide⟩

/-- C9, amended. In a run whose option loop ran to its end, that is one in which no help and
no version option is read, the object is the one resolved from the value of the last
`--object` option, or, without such an option, the one inferred from the basename of
`argv[0]`; every call of the engine is for that object; and if it is `OBJECT_INVALID`, `main`
prints `invalid object` on the error stream, prints the usage text and ends with
`EXIT_FAILURE`, without a call of the engine. -/
theorem object_selection (env : Env) (b : Build) (argv : List String) (st : State)
    (tr : List Effect)
    (hloop : parse_args env b (env.getopt_long argv optstring (long_options b))
      (initial env argv) = .done st tr) :
    st.obj = selected_object env argv (env.getopt_long argv optstring (long_options b)) ∧
    (object_values (env.getopt_long argv optstring (long_options b)) = [] →
      st.obj = env.object_from_name (env.basename argv.head?) false) ∧
    (∀ s, (object_values (env.getopt_long argv optstring (long_options b))).getLast? = some s →
      st.obj = env.object_from_name s false) ∧
    (∀ o j h p, .object_rst o j h p ∈ (main env b argv).trace → o = st.obj) ∧
    (∀ o j p, .object_pos o j p ∈ (main env b argv).trace → o = st.obj) ∧
    (st.obj = .OBJECT_INVALID →
      (main env b argv).status = some EXIT_FAILURE ∧
      .printf .stderr "invalid object\n" [] ∈ (main env b argv).trace ∧
      stdout_of (main env b argv).trace = .printf .stdout "\n" [] :: usage env b ∧
      (∀ e ∈ (main env b argv).trace, e.is_engine = false)) := by
  have hobj := parse_obj env b _ _ st tr hloop
  have hsel : st.obj =
      selected_object env argv (env.getopt_long argv optstring (long_options b)) := by
    rw [hobj]
    unfold selected_object
    cases (object_values (env.getopt_long argv optstring (long_options b))).getLast? <;> rfl
  have hengine : ∀ e ∈ (main env b argv).trace, e.is_engine = true →
      e ∈ (calculate env (validate env b st).1).trace := by
    intro e he hk
    rw [main_done env b argv st tr hloop] at he
    split at he
    · rename_i herr
      have := (main_failed_effects env b argv st tr hloop herr).1 e
        (by rw [main_failed env b argv st tr hloop herr]; exact he)
      rw [this.1] at hk
      cases hk
    · simp only [List.mem_append] at he
      rcases he with ((he | he) | he) | he
      · rw [(silent_effect e (parse_silent env b _ _ st tr hloop e he)).2.1] at hk
        cases hk
      · rw [(silent_effect e (validate_silent env b st e he)).2.1] at hk
        cases hk
      · rw [(debug_output_effects env b _ e he).1] at hk
        cases hk
      · exact he
  refine ⟨hsel, ?_, ?_, ?_, ?_, ?_⟩
  · intro hnil
    rw [hobj, hnil]
    rfl
  · intro s hs
    rw [hobj, hs]
  · intro o j h p he
    rw [← (validate_fields env b st).2.2.2.1]
    exact (calculate_object env _).1 o j h p (hengine _ he rfl)
  · intro o j p he
    rw [← (validate_fields env b st).2.2.2.1]
    exact (calculate_object env _).2 o j p (hengine _ he rfl)
  · intro hinv
    obtain ⟨herr, hdiag⟩ := validate_invalid_object env b st hinv
    obtain ⟨hk, hout⟩ := main_failed_effects env b argv st tr hloop herr
    refine ⟨?_, ?_, hout, fun e he => (hk e he).1⟩
    · rw [main_failed env b argv st tr hloop herr]
    · rw [main_failed env b argv st tr hloop herr]
      simp only [List.mem_append]
      exact Or.inl (Or.inl (Or.inr hdiag))

/-- Witness of C9, amended, in the stub: invoked with the name `/usr/bin/moon`, with the two options
`-p venus -p mars`, the object is mars; invoked with the name `calcelestial` and no option,
the run fails. -/
theorem object_selection_witness :
    object_values (stub.getopt_long
        ["/usr/bin/moon", "-p", "venus", "-a", "40", "-p", "mars", "-o", "0"] optstring
        (long_options plain)) = ["venus", "mars"] ∧
    stub.object_from_name (stub.basename (some "/usr/bin/moon")) false = .OBJECT_MOON ∧
    ({ sun_at lat_40 .MOMENT_NOW with obj := .OBJECT_PLANET 2 } : State).obj =
      stub.object_from_name "mars" false ∧
    (main stub plain ["calcelestial"]).status = some EXIT_FAILURE :=
  ⟨by decide, by decide,
   (object_selection stub plain
     ["/usr/bin/moon", "-p", "venus", "-a", "40", "-p", "mars", "-o", "0"]
     { sun_at lat_40 .MOMENT_NOW with obj := .OBJECT_PLANET 2 } [] (by decide)).2.2.1
     "mars" (by decide),
   ((object_selection stub plain ["calcelestial"] (initial stub ["calcelestial"]) []
     (by decide)).2.2.2.2.2 (by decide)).1⟩

/-- C10 (the code departs from it). In the stub, for the sun at latitude -80 and the moment
`rise`, the engine returns -1 (always below the horizon) and leaves the triple as it was;
`main` does not end with `EXIT_CIRCUMPOLAR`: it takes the rise instant out of the triple the
engine did not compute (the leftover 3), queries the position for it and ends with
`EXIT_SUCCESS`. -/
theorem below_horizon_not_reported :
    validated stub plain ["sun", "-a", "-80", "-o", "0", "-m", "rise"] =
      some (sun_at lat_minus_80 .MOMENT_RISE) ∧
    rst_return stub (sun_at lat_minus_80 .MOMENT_RISE) = -1 ∧
    rst_times stub (sun_at lat_minus_80 .MOMENT_RISE) = stub.result.rst ∧
    (main stub plain ["sun", "-a", "-80", "-o", "0", "-m", "rise"]).status =
      some EXIT_SUCCESS ∧
    (main stub plain ["sun", "-a", "-80", "-o", "0", "-m", "rise"]).status ≠
      some EXIT_CIRCUMPOLAR ∧
    Effect.object_pos .OBJECT_SUN stub.result.rst.rise ⟨.fin false 0 0, lat_minus_80⟩ ∈
      (main stub plain ["sun", "-a", "-80", "-o", "0", "-m", "rise"]).trace ∧
    ((main stub plain ["sun", "-a", "-80", "-o", "0", "-m", "rise"]).trace.filter
      Effect.is_formatter).length = 1 := by
  refine ⟨by decide, by decide, by decide, by decide, by decide, by decide, by decide⟩

end Calcelestial
